import Mathlib

/-!
Verification of the PostgreSQL-backed blockchain indexer (`src/db/pg.rs`).

The Rust source is shallowly embedded: pure query builders become Lean
functions over lists; each pipeline stage's per-batch loop body becomes a
step function; panics (`assert!`, `expect`, `HashMap` indexing) become
`Option` results (`none` = the thread dies); fallible calls become `Except`.
`HashMap` is modelled as an association list with at most one binding per
key (`map_insert` overwrites).  SQL execution by the backend is external to
the repository, so where a claim needs it, the backend's behaviour is
modelled from the spec and marked as such in the doc comment.
-/

namespace Indexer

/-- Pipeline mode, from `enum PipelineMode { Atomic, Bulk }` in the source. -/
inductive PipelineMode where
  | Atomic
  | Bulk
deriving DecidableEq

/-- From `PipelineMode::is_atomic`. -/
def PipelineMode.is_atomic (m : PipelineMode) : Bool :=
  m = PipelineMode.Atomic

/-- Modelled from the spec: the external `BlockHash`/`TxHash` type (the
parser's hash type is not under `src/`): 32 opaque bytes, stored
little-endian in memory while the `Display` hex shows them big-endian
(i.e. byte-reversed).  `bytes` is the in-memory (storage) order. -/
structure Hash256 where
  bytes : List Nat
deriving DecidableEq

/-- Modelled from the spec: `BlockHash::from(slice)` builds the hash from
in-memory byte order. -/
def Hash256.ofBytes (bs : List Nat) : Hash256 := ⟨bs⟩

/-- Modelled from the spec: the bytes shown by `Display` (big-endian
display of a little-endian in-memory value, hence reversed). -/
def Hash256.display_bytes (h : Hash256) : List Nat := h.bytes.reverse

/-- From the record types used by `pg.rs` (declared in the sibling module
`db/mod.rs`, not under `src/`); fields are the ones `pg.rs` reads.
Modelled from the spec: an `OutPoint` is a (tx hash, vout) pair. -/
structure OutPoint where
  txid : Hash256
  vout : Nat
deriving DecidableEq

/-- Modelled from the spec: block record (height, hash, prev_hash). -/
structure Block where
  height : Nat
  hash : Hash256
  prev_hash : Hash256
deriving DecidableEq

/-- Modelled from the spec: transaction record. -/
structure Tx where
  height : Nat
  hash : Hash256
  coinbase : Bool
deriving DecidableEq

/-- Modelled from the spec: output record; `address` is optional. -/
structure Output where
  height : Nat
  out_point : OutPoint
  value : Nat
  address : Option String
  coinbase : Bool
deriving DecidableEq

/-- Modelled from the spec: input record (height plus spent outpoint). -/
structure Input where
  height : Nat
  out_point : OutPoint
deriving DecidableEq

/-- Modelled from the spec: result of parsing one raw block
(`parse_node_block`'s output type, not under `src/`). -/
structure Parsed where
  block : Block
  txs : List Tx
  outputs : List Output
  inputs : List Input
deriving DecidableEq

/-- From `struct UtxoSetEntry { id: i64, value: u64 }`. -/
structure UtxoSetEntry where
  id : Int
  value : Nat
deriving DecidableEq

/-- Association-list model of Rust's `HashMap`: at most one binding per
key; `map_insert` overwrites any previous binding. -/
def map_insert [DecidableEq κ] (m : List (κ × ν)) (k : κ) (v : ν) :
    List (κ × ν) :=
  (k, v) :: m.filter (fun p => decide (p.1 ≠ k))

/-- Lookup in the association-list model of `HashMap`. -/
def map_lookup [DecidableEq κ] (m : List (κ × ν)) (k : κ) : Option ν :=
  (m.find? (fun p => decide (p.1 = k))).map Prod.snd

/-- Removal in the association-list model of `HashMap` (`HashMap::remove`
drops the binding). -/
def map_remove [DecidableEq κ] (m : List (κ × ν)) (k : κ) : List (κ × ν) :=
  m.filter (fun p => decide (p.1 ≠ k))

/-- A single-quote character as a string (for SQL literals). -/
def sq : String := (Char.ofNat 39).toString

/-- Lower-case hex digit. -/
def hexChar (n : Nat) : Char :=
  if n < 10 then Char.ofNat (48 + n) else Char.ofNat (87 + n)

/-- Two-digit lower-case hex of one byte. -/
def byteHex (b : Nat) : String :=
  (hexChar (b / 16 % 16)).toString ++ (hexChar (b % 16)).toString

/-- Hex string of a byte list. -/
def hexOfBytes (bs : List Nat) : String :=
  bs.foldl (fun acc b => acc ++ byteHex b) ""

/-- Hex the source's `format!("{}", hash)` produces: the display-order
bytes of the hash. -/
def hash_hex (h : Hash256) : String := hexOfBytes h.display_bytes

/-- The single statement the blocks builder renders for one chunk
(the non-recursive tail of `create_bulk_insert_blocks_query`). -/
def render_blocks_stmt (blocks : List Block) : String :=
  "INSERT INTO blocks (height, hash, prev_hash) VALUES" ++
    String.intercalate ","
      (blocks.map (fun b =>
        "(" ++ toString b.height ++ ", " ++ sq ++ "\\x" ++ hash_hex b.hash ++
          sq ++ ", " ++ sq ++ "\\x" ++ hash_hex b.prev_hash ++ sq ++ ")")) ++
    ";"

/-- From `create_bulk_insert_blocks_query`: empty slice gives no
statements; above 9000 rows the slice is bisected at `len / 2`. -/
def create_bulk_insert_blocks_query (blocks : List Block) : List String :=
  if blocks.isEmpty then []
  else if h : 9000 < blocks.length then
    create_bulk_insert_blocks_query (blocks.take (blocks.length / 2)) ++
      create_bulk_insert_blocks_query (blocks.drop (blocks.length / 2))
  else [render_blocks_stmt blocks]
termination_by blocks.length
decreasing_by
  · simp only [List.length_take]
    omega
  · simp only [List.length_drop]
    omega

/-- The single statement the txs builder renders for one chunk. -/
def render_txs_stmt (txs : List Tx) : String :=
  "INSERT INTO txs (height, hash, coinbase) VALUES" ++
    String.intercalate ","
      (txs.map (fun t =>
        "(" ++ toString t.height ++ "," ++ sq ++ "\\x" ++ hash_hex t.hash ++
          sq ++ "," ++ toString t.coinbase ++ ")")) ++
    ";"

/-- From `create_bulk_insert_txs_query`. -/
def create_bulk_insert_txs_query (txs : List Tx) : List String :=
  if txs.isEmpty then []
  else if h : 9000 < txs.length then
    create_bulk_insert_txs_query (txs.take (txs.length / 2)) ++
      create_bulk_insert_txs_query (txs.drop (txs.length / 2))
  else [render_txs_stmt txs]
termination_by txs.length
decreasing_by
  · simp only [List.length_take]
    omega
  · simp only [List.length_drop]
    omega

/-- One VALUES tuple of the outputs insert; `tx_ids[&output.out_point.txid]`
is a `HashMap` index, which panics when absent (hence `Option`). -/
def render_output_row (tx_ids : List (Hash256 × Int)) (o : Output) :
    Option String :=
  (map_lookup tx_ids o.out_point.txid).map (fun txid =>
    "(" ++ toString o.height ++ "," ++ toString txid ++ "," ++
      toString o.out_point.vout ++ "," ++ toString o.value ++ "," ++
      (match o.address with
       | none => "null"
       | some s => sq ++ s ++ sq) ++ "," ++ toString o.coinbase ++ ")")

/-- The single statement the outputs builder renders for one chunk. -/
def render_outputs_stmt (tx_ids : List (Hash256 × Int))
    (outputs : List Output) : Option String :=
  (outputs.mapM (render_output_row tx_ids)).map (fun rows =>
    "INSERT INTO outputs (height, tx_id, tx_idx, value, address, coinbase) VALUES " ++
      String.intercalate "," rows ++ ";")

/-- From `create_bulk_insert_outputs_query`; `none` models the panic on a
tx hash absent from `tx_ids`. -/
def create_bulk_insert_outputs_query (outputs : List Output)
    (tx_ids : List (Hash256 × Int)) : Option (List String) :=
  if outputs.isEmpty then some []
  else if h : 9000 < outputs.length then
    do
      let p1 ← create_bulk_insert_outputs_query
        (outputs.take (outputs.length / 2)) tx_ids
      let p2 ← create_bulk_insert_outputs_query
        (outputs.drop (outputs.length / 2)) tx_ids
      pure (p1 ++ p2)
  else (render_outputs_stmt tx_ids outputs).map (fun s => [s])
termination_by outputs.length
decreasing_by
  · simp only [List.length_take]
    omega
  · simp only [List.length_drop]
    omega

/-- One VALUES tuple of the inputs insert; `outputs[&input.out_point]` is a
`HashMap` index, which panics when absent (hence `Option`). -/
def render_input_row (outputs : List (OutPoint × UtxoSetEntry)) (i : Input) :
    Option String :=
  (map_lookup outputs i.out_point).map (fun e =>
    "(" ++ toString i.height ++ "," ++ toString e.id ++ ")")

/-- The single statement the inputs builder renders for one chunk. -/
def render_inputs_stmt (outputs : List (OutPoint × UtxoSetEntry))
    (inputs : List Input) : Option String :=
  (inputs.mapM (render_input_row outputs)).map (fun rows =>
    "INSERT INTO inputs (height, output_id) VALUES " ++
      String.intercalate "," rows ++ ";")

/-- From `create_bulk_insert_inputs_query`; `none` models the panic on an
outpoint absent from `outputs`. -/
def create_bulk_insert_inputs_query (inputs : List Input)
    (outputs : List (OutPoint × UtxoSetEntry)) : Option (List String) :=
  if inputs.isEmpty then some []
  else if h : 9000 < inputs.length then
    do
      let p1 ← create_bulk_insert_inputs_query
        (inputs.take (inputs.length / 2)) outputs
      let p2 ← create_bulk_insert_inputs_query
        (inputs.drop (inputs.length / 2)) outputs
      pure (p1 ++ p2)
  else (render_inputs_stmt outputs inputs).map (fun s => [s])
termination_by inputs.length
decreasing_by
  · simp only [List.length_take]
    omega
  · simp only [List.length_drop]
    omega

/-- The single statement the fetch-outputs builder renders for one chunk. -/
def render_fetch_stmt (outputs : List OutPoint) : String :=
  "SELECT outputs.id, outputs.value, txs.hash, outputs.tx_idx FROM outputs INNER JOIN txs ON (txs.id = outputs.tx_id) WHERE (txs.hash, outputs.tx_idx) IN ( VALUES " ++
    String.intercalate ","
      (outputs.map (fun p =>
        "(" ++ sq ++ "\\x" ++ hash_hex p.txid ++ sq ++ "::bytea," ++
          toString p.vout ++ ")")) ++
    " );"

/-- From `crate_fetch_outputs_query` (source spelling kept).  Note: unlike
the insert builders, the source has no empty-slice guard here, so the
empty slice renders one (degenerate) statement. -/
def crate_fetch_outputs_query (outputs : List OutPoint) : List String :=
  if h : 1500 < outputs.length then
    crate_fetch_outputs_query (outputs.take (outputs.length / 2)) ++
      crate_fetch_outputs_query (outputs.drop (outputs.length / 2))
  else [render_fetch_stmt outputs]
termination_by outputs.length
decreasing_by
  · simp only [List.length_take]
    omega
  · simp only [List.length_drop]
    omega

/-- Companion decomposition of the insert builders' recursion: the chunks
of the input slice, in order, that each emitted statement covers.  (The
`2 ≤ xs.length` conjunct is redundant for caps at least 1 and only makes
the recursion well-founded for arbitrary caps.) -/
def chunks (cap : Nat) (xs : List α) : List (List α) :=
  if xs.isEmpty then []
  else if h : cap < xs.length ∧ 2 ≤ xs.length then
    chunks cap (xs.take (xs.length / 2)) ++ chunks cap (xs.drop (xs.length / 2))
  else [xs]
termination_by xs.length
decreasing_by
  · simp only [List.length_take]
    omega
  · simp only [List.length_drop]
    omega

/-- Chunk decomposition used by the fetch-outputs builder: same bisection,
but the empty slice yields one (empty) chunk, matching the missing
empty-slice guard in `crate_fetch_outputs_query`. -/
def fetch_chunks (cap : Nat) (xs : List α) : List (List α) :=
  if h : cap < xs.length ∧ 2 ≤ xs.length then
    fetch_chunks cap (xs.take (xs.length / 2)) ++
      fetch_chunks cap (xs.drop (xs.length / 2))
  else [xs]
termination_by xs.length
decreasing_by
  · simp only [List.length_take]
    omega
  · simp only [List.length_drop]
    omega

/-- Sizes of the chunks, as a function of the slice length alone. -/
def chunk_sizes (cap n : Nat) : List Nat :=
  if n = 0 then []
  else if cap < n ∧ 2 ≤ n then
    chunk_sizes cap (n / 2) ++ chunk_sizes cap (n - n / 2)
  else [n]
termination_by n
decreasing_by
  · omega
  · omega

/-- From `UtxoSetCache::insert`: overwrite the entry for `point`. -/
def utxo_insert (cache : List (OutPoint × UtxoSetEntry)) (point : OutPoint)
    (id : Int) (value : Nat) : List (OutPoint × UtxoSetEntry) :=
  map_insert cache point ⟨id, value⟩

/-- From `UtxoSetCache::consume`: remove each requested outpoint from the
cache, partitioning into (found map, missing vector, remaining cache). -/
def utxo_consume (cache : List (OutPoint × UtxoSetEntry))
    (points : List OutPoint) :
    List (OutPoint × UtxoSetEntry) × List OutPoint ×
      List (OutPoint × UtxoSetEntry) :=
  points.foldl
    (fun acc p =>
      match map_lookup acc.2.2 p with
      | some details => (map_insert acc.1 p details, acc.2.1, map_remove acc.2.2 p)
      | none => (acc.1, acc.2.1 ++ [p], acc.2.2))
    ([], [], cache)

/-- One row of the result set of the fetch-outputs SELECT:
`(outputs.id, outputs.value, txs.hash, outputs.tx_idx)`.  `tx_hash` is the
hash as stored in the backend, i.e. display-order bytes (the insert path
writes the hex of the `Display` form). -/
structure FetchRow where
  id : Int
  value : Nat
  tx_hash : List Nat
  tx_idx : Nat
deriving DecidableEq

/-- From `UtxoSetCache::fetch_missing`.  The connection is modelled by the
backend's joined output rows (`fetch_rows`); executing the SELECT built by
`crate_fetch_outputs_query` is modelled from the spec: it returns exactly
the rows whose stored `(txs.hash, outputs.tx_idx)` matches one of the
requested outpoints' rendered keys (the hex of the display bytes).  As in
the source, each returned row's `tx_hash` is byte-reversed before being
used as a map key, and rows are inserted into the result map with no check
that every requested outpoint was matched. -/
def fetch_missing (fetch_rows : List FetchRow) (missing : List OutPoint) :
    Except String (List (OutPoint × UtxoSetEntry)) :=
  if missing.isEmpty then Except.ok []
  else
    Except.ok
      ((fetch_rows.filter (fun row =>
          missing.any (fun p =>
            decide (p.txid.display_bytes = row.tx_hash) &&
              decide (p.vout = row.tx_idx)))).foldl
        (fun out row =>
          map_insert out ⟨Hash256.ofBytes row.tx_hash.reverse, row.tx_idx⟩
            ⟨row.id, row.value⟩)
        [])

/-- Model of one database connection: the per-table sequence state a stage
could read back (`read_next_id` queries the backend's sequence), plus the
joined output rows visible to the fetch-outputs SELECT. -/
structure Conn where
  txs_seq : Int
  outputs_seq : Int
  inputs_seq : Int
  blocks_seq : Int
  fetch_rows : List FetchRow
deriving DecidableEq

/-- Message from the txs stage to the outputs stage. -/
structure OutputsMsg where
  batch_id : Nat
  blocks : List Block
  outputs : List Output
  inputs : List Input
  tx_ids : List (Hash256 × Int)
  pending_queries : List (List String)
deriving DecidableEq

/-- Message from the outputs stage to the inputs stage. -/
structure InputsMsg where
  batch_id : Nat
  blocks : List Block
  inputs : List Input
  pending_queries : List (List String)
deriving DecidableEq

/-- Message from the inputs stage to the blocks stage. -/
structure BlocksMsg where
  batch_id : Nat
  blocks : List Block
  pending_queries : List (List String)
deriving DecidableEq

/-- All transactions a batch makes a stage execute: each element is the
statement list committed by one `execute_bulk_insert_transcation` call. -/
abbrev Executed := List (List String)

/-- The blocks of a batch, concatenated in batch order (the accumulation
loop at the top of the txs worker). -/
def batch_blocks (parsed : List Parsed) : List Block :=
  (parsed.map Parsed.block)

/-- The txs of a batch, concatenated in batch order. -/
def batch_txs (parsed : List Parsed) : List Tx :=
  (parsed.map Parsed.txs).flatten

/-- The outputs of a batch, concatenated in batch order. -/
def batch_outputs (parsed : List Parsed) : List Output :=
  (parsed.map Parsed.outputs).flatten

/-- The inputs of a batch, concatenated in batch order. -/
def batch_inputs (parsed : List Parsed) : List Input :=
  (parsed.map Parsed.inputs).flatten

/-- Surrogate tx-id assignment in the txs stage: the i-th tx of the batch
gets `next_id + i`; the map is keyed by tx hash. -/
def assign_tx_ids (txs : List Tx) (next_id : Int) : List (Hash256 × Int) :=
  txs.enum.foldl (fun m p => map_insert m p.2.hash (next_id + p.1)) []

/-- Result of one iteration of the txs worker loop. -/
structure TxsStepResult where
  executed : Executed
  next_id : Int
  out : OutputsMsg
deriving DecidableEq

/-- From the txs worker loop body in `Pipeline::new`: assert the cached
next id equals the backend sequence (`none` models the `assert_eq!`
panic), concatenate the batch, build the txs insert, execute it in bulk
mode or defer it in atomic mode, assign tx ids positionally, and advance
the cursor by the batch's tx count. -/
def txs_step (mode : PipelineMode) (conn : Conn) (next_id : Int)
    (batch_id : Nat) (parsed : List Parsed) : Option TxsStepResult :=
  if next_id = conn.txs_seq then
    let txs := batch_txs parsed
    let queries := create_bulk_insert_txs_query txs
    let executed : Executed := if mode.is_atomic then [] else [queries]
    let pending : List (List String) := if mode.is_atomic then [queries] else []
    some
      { executed := executed
        next_id := next_id + txs.length
        out :=
          { batch_id := batch_id
            blocks := batch_blocks parsed
            outputs := batch_outputs parsed
            inputs := batch_inputs parsed
            tx_ids := assign_tx_ids txs next_id
            pending_queries := pending } }
  else none

/-- Result of one iteration of the outputs worker loop. -/
structure OutputsStepResult where
  executed : Executed
  next_id : Int
  cache : List (OutPoint × UtxoSetEntry)
  out : InputsMsg
deriving DecidableEq

/-- From the outputs worker loop body: assert the cursor against the
backend sequence, build the outputs insert from `tx_ids` (`none` also
models the panic on a missing tx hash), execute or defer per mode, insert
every new output's (outpoint → id, value) into the UTXO cache
positionally, and advance the cursor by the batch's output count. -/
def outputs_step (mode : PipelineMode) (conn : Conn) (next_id : Int)
    (cache : List (OutPoint × UtxoSetEntry)) (msg : OutputsMsg) :
    Option OutputsStepResult :=
  if next_id = conn.outputs_seq then
    (create_bulk_insert_outputs_query msg.outputs msg.tx_ids).map
      (fun queries =>
        let executed : Executed := if mode.is_atomic then [] else [queries]
        let pending :=
          if mode.is_atomic then msg.pending_queries ++ [queries]
          else msg.pending_queries
        let cache' :=
          msg.outputs.enum.foldl
            (fun c p => utxo_insert c p.2.out_point (next_id + p.1) p.2.value)
            cache
        { executed := executed
          next_id := next_id + msg.outputs.length
          cache := cache'
          out :=
            { batch_id := msg.batch_id
              blocks := msg.blocks
              inputs := msg.inputs
              pending_queries := pending } })
  else none

/-- Result of one iteration of the inputs worker loop. -/
structure InputsStepResult where
  executed : Executed
  cache : List (OutPoint × UtxoSetEntry)
  out : BlocksMsg
deriving DecidableEq

/-- The merged outpoint map the inputs stage builds: cache hits from
`consume` plus the rows `fetch_missing` returned, the latter inserted on
top. -/
def merged_output_ids (cache : List (OutPoint × UtxoSetEntry))
    (fetch_rows : List FetchRow) (inputs : List Input) :
    Option (List (OutPoint × UtxoSetEntry)) :=
  let c := utxo_consume cache (inputs.map Input.out_point)
  match fetch_missing fetch_rows c.2.1 with
  | Except.error _ => none
  | Except.ok fetched =>
      some (fetched.foldl (fun m p => map_insert m p.1 p.2) c.1)

/-- From the inputs worker loop body: consume the batch's outpoints from
the UTXO cache, fetch the misses from the backend, merge, build the inputs
insert (`none` models both a `fetch_missing` error and the panic on an
outpoint absent from the merged map), and execute or defer per mode.  The
stage keeps no next-id cursor and reads no sequence. -/
def inputs_step (mode : PipelineMode) (conn : Conn)
    (cache : List (OutPoint × UtxoSetEntry)) (msg : InputsMsg) :
    Option InputsStepResult :=
  match merged_output_ids cache conn.fetch_rows msg.inputs with
  | none => none
  | some output_ids =>
      (create_bulk_insert_inputs_query msg.inputs output_ids).map
        (fun queries =>
          { executed := if mode.is_atomic then [] else [queries]
            cache := (utxo_consume cache (msg.inputs.map Input.out_point)).2.2
            out :=
              { batch_id := msg.batch_id
                blocks := msg.blocks
                pending_queries :=
                  if mode.is_atomic then msg.pending_queries ++ [queries]
                  else msg.pending_queries } })

/-- The in-flight registry removal loop of the blocks worker: remove each
block's height, recording whether any height was absent. -/
def remove_in_flight (in_flight : List (Nat × Hash256)) (blocks : List Block) :
    List (Nat × Hash256) × Bool :=
  blocks.foldl
    (fun acc b =>
      (map_remove acc.1 b.height,
        acc.2 || (map_lookup acc.1 b.height).isNone))
    (in_flight, false)

/-- Result of one iteration of the blocks worker loop. -/
structure BlocksStepResult where
  executed : Executed
  in_flight : List (Nat × Hash256)
deriving DecidableEq

/-- From the blocks worker loop body: build the blocks insert; in atomic
mode append it to `pending_queries` and commit every accumulated statement
of the batch in one transaction, in bulk mode commit just the blocks
statements; then log the last block (`none` models the `expect("at least
one block")` panic on an empty batch), remove each height from the
in-flight registry and assert none was missing (`none` models that
`assert!`).  The stage keeps no next-id cursor and reads no sequence. -/
def blocks_step (mode : PipelineMode) (_conn : Conn)
    (in_flight : List (Nat × Hash256)) (msg : BlocksMsg) :
    Option BlocksStepResult :=
  let queries := create_bulk_insert_blocks_query msg.blocks
  let executed : Executed :=
    if mode.is_atomic then [(msg.pending_queries ++ [queries]).flatten]
    else [queries]
  if msg.blocks.isEmpty then none
  else
    let r := remove_in_flight in_flight msg.blocks
    if r.2 then none else some { executed := executed, in_flight := r.1 }

/-- Everything one batch makes the four stages do. -/
structure PipelineResult where
  txs_executed : Executed
  outputs_executed : Executed
  inputs_executed : Executed
  blocks_executed : Executed
  txs_next_id : Int
  outputs_next_id : Int
  cache : List (OutPoint × UtxoSetEntry)
  in_flight : List (Nat × Hash256)
deriving DecidableEq

/-- One batch flowing through the four stages of `Pipeline::new`, in
channel order (txs → outputs → inputs → blocks); `none` whenever some
worker dies. -/
def pipeline_batch (mode : PipelineMode) (conn : Conn)
    (txs_next outputs_next : Int) (cache : List (OutPoint × UtxoSetEntry))
    (in_flight : List (Nat × Hash256)) (batch_id : Nat)
    (parsed : List Parsed) : Option PipelineResult :=
  (txs_step mode conn txs_next batch_id parsed).bind fun r1 =>
    (outputs_step mode conn outputs_next cache r1.out).bind fun r2 =>
      (inputs_step mode conn r2.cache r2.out).bind fun r3 =>
        (blocks_step mode conn in_flight r3.out).map fun r4 =>
          { txs_executed := r1.executed
            outputs_executed := r2.executed
            inputs_executed := r3.executed
            blocks_executed := r4.executed
            txs_next_id := r1.next_id
            outputs_next_id := r2.next_id
            cache := r3.cache
            in_flight := r4.in_flight }

/-- One stored row as the recovery truncator sees it: the column the
delete is windowed by (`id` for blocks, txs and outputs — but `output_id`,
the id of the *spent output*, for inputs, pg.rs:666) and the height.
List order is insertion order. -/
structure TableRow where
  id : Int
  height : Nat
deriving DecidableEq

/-- Monotonicity of the window column along insertion order: the column
strictly increases and heights never decrease.  For blocks, txs and
outputs (windowed by their own surrogate id) this is exactly the spec's
monotonicity invariant.  For the inputs table the code windows by
`output_id`, and the spec's invariant does **not** make that column
monotone: an input may spend an arbitrarily old output (see claim C2). -/
def Mono (t : List TableRow) : Prop :=
  t.Pairwise (fun r s => r.id < s.id ∧ r.height ≤ s.height)

instance (t : List TableRow) : Decidable (Mono t) :=
  inferInstanceAs (Decidable (t.Pairwise
    (fun (r s : TableRow) => r.id < s.id ∧ r.height ≤ s.height)))

/-- The row `max(id)` comes from. -/
def max_id_row (t : List TableRow) : Option TableRow :=
  t.argmax TableRow.id

/-- From `Postresql::get_max_height`: the backend evaluates
`SELECT height FROM blocks ORDER BY id DESC LIMIT 1`, i.e. the height of
the row with the largest id (ids are unique primary keys), not the
maximum of the height column. -/
def get_max_height (blocks : List TableRow) : Option Nat :=
  (max_id_row blocks).map TableRow.height

/-- One pass of the truncator's loop: the backend executes
`DELETE FROM t WHERE id > (SELECT max(id) - 100000 FROM t) AND height > $1`.
On an empty table `max(id)` is NULL and the comparison deletes nothing. -/
def wipe_pass (height : Nat) (t : List TableRow) : List TableRow :=
  match (max_id_row t).map TableRow.id with
  | none => t
  | some m =>
      t.filter (fun r =>
        !(decide (m - 100000 < r.id) && decide (height < r.height)))

/-- From `Postresql::wipe_gt_height_from_id_sorted_table`: repeat the
delete until a pass deletes zero rows. -/
def wipe_gt_height_from_id_sorted_table (height : Nat) (t : List TableRow) :
    List TableRow :=
  if h : (wipe_pass height t).length = t.length then wipe_pass height t
  else wipe_gt_height_from_id_sorted_table height (wipe_pass height t)
termination_by t.length
decreasing_by
  have hle : (wipe_pass height t).length ≤ t.length := by
    unfold wipe_pass
    cases (max_id_row t).map TableRow.id with
    | none => exact Nat.le_refl _
    | some m => exact t.length_filter_le _
  omega

/-- From `Postresql::wipe_inconsistent_data`: read the committed height
witness from the blocks table and truncate txs, outputs and inputs above
it; with no committed block, do nothing. -/
def wipe_inconsistent_data (blocks txs outputs inputs : List TableRow) :
    List TableRow × List TableRow × List TableRow :=
  match get_max_height blocks with
  | none => (txs, outputs, inputs)
  | some height =>
      (wipe_gt_height_from_id_sorted_table height txs,
        wipe_gt_height_from_id_sorted_table height outputs,
        wipe_gt_height_from_id_sorted_table height inputs)

/-- The four height-indexed tables, by row (id, height) only. -/
structure Tables where
  blocks : List TableRow
  txs : List TableRow
  outputs : List TableRow
  inputs : List TableRow
deriving DecidableEq

/-- Modelled from the spec: the relational backend accepts standard SQL
delete syntax (`DELETE FROM t WHERE height >= $1`); `REMOVE` is not a
statement the specified backend accepts, so any other text is rejected
with a syntax error (spec §9: "the source's reorg path issues statements
using a keyword that the specified backend does not accept").  Returns
the updated tables and the deleted-row count. -/
def exec_height_ge_delete (t : Tables) (stmt : String) (param : Nat) :
    Except String (Tables × Nat) :=
  let del := fun (rows : List TableRow) =>
    rows.filter (fun r => decide (r.height < param))
  if stmt = "DELETE FROM blocks WHERE height >= $1" then
    Except.ok ({ t with blocks := del t.blocks },
      t.blocks.length - (del t.blocks).length)
  else if stmt = "DELETE FROM txs WHERE height >= $1" then
    Except.ok ({ t with txs := del t.txs },
      t.txs.length - (del t.txs).length)
  else if stmt = "DELETE FROM inputs WHERE height >= $1" then
    Except.ok ({ t with inputs := del t.inputs },
      t.inputs.length - (del t.inputs).length)
  else if stmt = "DELETE FROM outputs WHERE height >= $1" then
    Except.ok ({ t with outputs := del t.outputs },
      t.outputs.length - (del t.outputs).length)
  else Except.error "syntax error"

/-- From `Postresql::reorg_at_height`: after forcing normal (atomic) mode,
issue the four row-removal statements, blocks first, each through `?` so
the first backend error aborts the whole operation.  The statement texts
are the source's literal `REMOVE FROM ...` strings. -/
def reorg_at_height (t : Tables) (height : Nat) : Except String Tables := do
  let r1 ← exec_height_ge_delete t "REMOVE FROM blocks WHERE height >= $1" height
  let r2 ← exec_height_ge_delete r1.1 "REMOVE FROM txs WHERE height >= $1" height
  let r3 ← exec_height_ge_delete r2.1 "REMOVE FROM inputs WHERE height >= $1" height
  let r4 ← exec_height_ge_delete r3.1 "REMOVE FROM outputs WHERE height >= $1" height
  pure r4.1

/-- Modelled from the spec: the reorg operation the spec intends — the
same four deletions, blocks first, issued with the backend's standard
delete syntax. -/
def reorg_at_height_intended (t : Tables) (height : Nat) :
    Except String Tables := do
  let r1 ← exec_height_ge_delete t "DELETE FROM blocks WHERE height >= $1" height
  let r2 ← exec_height_ge_delete r1.1 "DELETE FROM txs WHERE height >= $1" height
  let r3 ← exec_height_ge_delete r2.1 "DELETE FROM inputs WHERE height >= $1" height
  let r4 ← exec_height_ge_delete r3.1 "DELETE FROM outputs WHERE height >= $1" height
  pure r4.1

/-- Modelled from the spec: the fields of `BlockInfo` that `pg.rs` reads —
the height, the hash, and `block.txdata.len()` (the block's tx count);
the raw block body only matters to the external parser. -/
structure BlockInfo where
  height : Nat
  hash : Hash256
  tx_count : Nat
deriving DecidableEq

/-- The front-end state of `struct Postresql` that the batch aggregator
touches; `dispatched` logs the messages sent down the pipeline channel. -/
structure PgState where
  cached_max_height : Option Nat
  batch : List BlockInfo
  batch_txs_total : Nat
  batch_id : Nat
  in_flight : List (Nat × Hash256)
  dispatched : List (Nat × List Parsed)
deriving DecidableEq

/-- From `Postresql::update_max_height`. -/
def update_max_height (cached : Option Nat) (height : Nat) : Option Nat :=
  some (match cached with
        | none => height
        | some h => max h height)

/-- From `Postresql::flush_batch`, parametric in the external
`parse_node_block` (its definition is not under `src/`).  The accumulated
batch is taken out of `self.batch` first (`mem::replace`), then parsed;
any parse failure returns the error with nothing dispatched (the parallel
`collect::<Result<_>>` short-circuits); on success the heights enter the
in-flight registry, the batch is sent with the current batch id, the tx
counter resets and the batch id bumps. -/
def flush_batch (parse : BlockInfo → Except String Parsed) (st : PgState) :
    PgState × Except String Unit :=
  if st.batch.isEmpty then (st, Except.ok ())
  else
    match st.batch.mapM parse with
    | Except.error e => ({ st with batch := [] }, Except.error e)
    | Except.ok parsed =>
        ({ st with
            batch := []
            batch_txs_total := 0
            batch_id := st.batch_id + 1
            in_flight :=
              parsed.foldl (fun fl p => map_insert fl p.block.height p.block.hash)
                st.in_flight
            dispatched := st.dispatched ++ [(st.batch_id, parsed)] },
          Except.ok ())

/-- From `Postresql::insert` (the `DataStore` impl): update the cached max
height, add the block to the batch, and flush only when the cumulative tx
count strictly exceeds 100000.  The result of `self.flush_batch()` is
discarded (the source drops the `Result`), and `Ok(())` is returned. -/
def pg_insert (parse : BlockInfo → Except String Parsed) (st : PgState)
    (info : BlockInfo) : PgState × Except String Unit :=
  let st1 := { st with
    cached_max_height := update_max_height st.cached_max_height info.height
    batch_txs_total := st.batch_txs_total + info.tx_count
    batch := st.batch ++ [info] }
  if 100000 < st1.batch_txs_total then
    ((flush_batch parse st1).1, Except.ok ())
  else (st1, Except.ok ())

/-- From `Postresql::flush`: flush the batch, discarding its result, and
return `Ok(())`. -/
def pg_flush (parse : BlockInfo → Except String Parsed) (st : PgState) :
    PgState × Except String Unit :=
  ((flush_batch parse st).1, Except.ok ())

/-- One row of the blocks table as the hash read path sees it: height and
the stored hash bytes (the bytea written by the insert's hex literal, i.e.
the hash's display-order bytes). -/
structure BlockHashRow where
  height : Nat
  hash : List Nat
  prev_hash : List Nat
deriving DecidableEq

/-- Modelled from the spec: the blocks table contents after a bulk ingest
of `bs` — executing the statements of `create_bulk_insert_blocks_query`
appends, in order, one row per block whose `hash` bytea holds the bytes
denoted by the `\x` hex literal, which is the hex of the hash's display
bytes. -/
def blocks_table_of (bs : List Block) : List BlockHashRow :=
  bs.map (fun b => ⟨b.height, b.hash.display_bytes, b.prev_hash.display_bytes⟩)

/-- The cached max height after ingesting `bs` (a fold of
`update_max_height` over the inserts). -/
def cached_max_of (bs : List Block) : Option Nat :=
  bs.foldl (fun m b => update_max_height m b.height) none

/-- From `Postresql::get_hash_by_height`: return `None` early when the
cached max height is below the requested height; otherwise run
`SELECT hash FROM blocks WHERE height = $1`, take the first row, reverse
its bytes and rebuild the hash. -/
def get_hash_by_height (cached_max : Option Nat) (table : List BlockHashRow)
    (height : Nat) : Option Hash256 :=
  match cached_max with
  | some m =>
      if m < height then none
      else
        (table.find? (fun r => decide (r.height = height))).map
          (fun r => Hash256.ofBytes r.hash.reverse)
  | none =>
      (table.find? (fun r => decide (r.height = height))).map
        (fun r => Hash256.ofBytes r.hash.reverse)

/-! ## Chunk decomposition of the bulk query builders -/

theorem chunks_flatten_aux (cap : Nat) :
    ∀ (n : Nat) (xs : List α), xs.length ≤ n → (chunks cap xs).flatten = xs := by
  intro n
  induction n with
  | zero =>
      intro xs hlen
      have hx : xs = [] := by cases xs <;> simp_all
      subst hx
      rw [chunks]
      simp
  | succ n ih =>
      intro xs hlen
      rw [chunks]
      by_cases he : xs.isEmpty = true
      · rw [if_pos he]
        simp [List.isEmpty_iff.mp he]
      · rw [if_neg he]
        by_cases hc : cap < xs.length ∧ 2 ≤ xs.length
        · rw [dif_pos hc, List.flatten_append,
            ih _ (by simp only [List.length_take]; omega),
            ih _ (by simp only [List.length_drop]; omega),
            List.take_append_drop]
        · rw [dif_neg hc]
          simp

/-- The chunks concatenate, in order, to the input slice. -/
theorem chunks_flatten (cap : Nat) (xs : List α) :
    (chunks cap xs).flatten = xs :=
  chunks_flatten_aux cap xs.length xs (Nat.le_refl _)

/-- An empty slice has no chunks. -/
theorem chunks_nil (cap : Nat) : chunks cap ([] : List α) = [] := by
  rw [chunks]
  simp

/-- A non-empty slice within the cap is one chunk: the whole slice. -/
theorem chunks_of_le (cap : Nat) (xs : List α) (hne : xs ≠ [])
    (hle : xs.length ≤ cap) : chunks cap xs = [xs] := by
  rw [chunks]
  rw [if_neg (by simp [List.isEmpty_iff, hne])]
  rw [dif_neg (fun hc => absurd hc.1 (by omega))]

/-- A slice over the cap is bisected at its midpoint. -/
theorem chunks_of_gt (cap : Nat) (xs : List α) (hgt : cap < xs.length)
    (hcap : 1 ≤ cap) :
    chunks cap xs =
      chunks cap (xs.take (xs.length / 2)) ++
        chunks cap (xs.drop (xs.length / 2)) := by
  have hne : xs ≠ [] := by
    intro h
    subst h
    simp at hgt
  rw [chunks]
  rw [if_neg (by simp [List.isEmpty_iff, hne])]
  rw [dif_pos ⟨hgt, by omega⟩]

theorem chunk_sizes_eq_aux (cap : Nat) :
    ∀ (n : Nat) (xs : List α), xs.length ≤ n →
      (chunks cap xs).map List.length = chunk_sizes cap xs.length := by
  intro n
  induction n with
  | zero =>
      intro xs hlen
      have hx : xs = [] := by cases xs <;> simp_all
      subst hx
      rw [chunks, chunk_sizes]
      simp
  | succ n ih =>
      intro xs hlen
      rw [chunks, chunk_sizes]
      by_cases he : xs.isEmpty = true
      · rw [if_pos he]
        have hx : xs = [] := List.isEmpty_iff.mp he
        simp [hx]
      · rw [if_neg he]
        have hx : xs.length ≠ 0 := by
          cases xs
          · simp at he
          · simp
        rw [if_neg hx]
        by_cases hc : cap < xs.length ∧ 2 ≤ xs.length
        · rw [dif_pos hc, if_pos hc, List.map_append,
            ih _ (by simp only [List.length_take]; omega),
            ih _ (by simp only [List.length_drop]; omega)]
          congr 1
          · congr 1
            simp only [List.length_take]
            omega
          · congr 1
            simp only [List.length_drop]
        · rw [dif_neg hc, if_neg hc]
          simp

/-- The sizes of the emitted chunks depend only on the slice length. -/
theorem chunk_sizes_eq (cap : Nat) (xs : List α) :
    (chunks cap xs).map List.length = chunk_sizes cap xs.length :=
  chunk_sizes_eq_aux cap xs.length xs (Nat.le_refl _)

/-- The split of an 18001-row slice at cap 9000: one statement of 9000
rows, then 4500 and 4501. -/
theorem chunk_sizes_18001 : chunk_sizes 9000 18001 = [9000, 4500, 4501] := by
  have h1 : chunk_sizes 9000 9000 = [9000] := by
    rw [chunk_sizes]
    norm_num
  have h2 : chunk_sizes 9000 4500 = [4500] := by
    rw [chunk_sizes]
    norm_num
  have h3 : chunk_sizes 9000 4501 = [4501] := by
    rw [chunk_sizes]
    norm_num
  have h4 : chunk_sizes 9000 9001 = [4500, 4501] := by
    rw [chunk_sizes]
    norm_num [h2, h3]
  rw [chunk_sizes]
  norm_num [h1, h4]

theorem blocks_query_chunks_aux :
    ∀ (n : Nat) (bs : List Block), bs.length ≤ n →
      create_bulk_insert_blocks_query bs =
        (chunks 9000 bs).map render_blocks_stmt := by
  intro n
  induction n with
  | zero =>
      intro bs hlen
      have hx : bs = [] := by cases bs <;> simp_all
      subst hx
      rw [create_bulk_insert_blocks_query, chunks]
      simp
  | succ n ih =>
      intro bs hlen
      rw [create_bulk_insert_blocks_query, chunks]
      by_cases he : bs.isEmpty = true
      · rw [if_pos he, if_pos he]
        simp
      · rw [if_neg he, if_neg he]
        by_cases hgt : 9000 < bs.length
        · rw [dif_pos hgt, dif_pos ⟨hgt, by omega⟩, List.map_append,
            ih _ (by simp only [List.length_take]; omega),
            ih _ (by simp only [List.length_drop]; omega)]
        · rw [dif_neg hgt, dif_neg (fun hc => absurd hc.1 hgt)]
          simp

/-- The blocks builder renders exactly one statement per chunk, in
order. -/
theorem blocks_query_chunks (bs : List Block) :
    create_bulk_insert_blocks_query bs =
      (chunks 9000 bs).map render_blocks_stmt :=
  blocks_query_chunks_aux bs.length bs (Nat.le_refl _)

theorem txs_query_chunks_aux :
    ∀ (n : Nat) (ts : List Tx), ts.length ≤ n →
      create_bulk_insert_txs_query ts =
        (chunks 9000 ts).map render_txs_stmt := by
  intro n
  induction n with
  | zero =>
      intro ts hlen
      have hx : ts = [] := by cases ts <;> simp_all
      subst hx
      rw [create_bulk_insert_txs_query, chunks]
      simp
  | succ n ih =>
      intro ts hlen
      rw [create_bulk_insert_txs_query, chunks]
      by_cases he : ts.isEmpty = true
      · rw [if_pos he, if_pos he]
        simp
      · rw [if_neg he, if_neg he]
        by_cases hgt : 9000 < ts.length
        · rw [dif_pos hgt, dif_pos ⟨hgt, by omega⟩, List.map_append,
            ih _ (by simp only [List.length_take]; omega),
            ih _ (by simp only [List.length_drop]; omega)]
        · rw [dif_neg hgt, dif_neg (fun hc => absurd hc.1 hgt)]
          simp

/-- The txs builder renders exactly one statement per chunk, in order. -/
theorem txs_query_chunks (ts : List Tx) :
    create_bulk_insert_txs_query ts =
      (chunks 9000 ts).map render_txs_stmt :=
  txs_query_chunks_aux ts.length ts (Nat.le_refl _)

theorem option_mapM_nil (f : α → Option β) : List.mapM f [] = some [] := rfl

theorem option_mapM_singleton (f : α → Option β) (a : α) :
    List.mapM f [a] = (f a).map (fun b => [b]) := by
  rw [List.mapM_cons, List.mapM_nil]
  cases h : f a
  · rfl
  · rfl

theorem outputs_query_chunks_aux (ti : List (Hash256 × Int)) :
    ∀ (n : Nat) (os : List Output), os.length ≤ n →
      create_bulk_insert_outputs_query os ti =
        (chunks 9000 os).mapM (render_outputs_stmt ti) := by
  intro n
  induction n with
  | zero =>
      intro os hlen
      have hx : os = [] := by cases os <;> simp_all
      subst hx
      rw [chunks_nil, create_bulk_insert_outputs_query, option_mapM_nil]
      simp
  | succ n ih =>
      intro os hlen
      rw [create_bulk_insert_outputs_query, chunks]
      by_cases he : os.isEmpty = true
      · rw [if_pos he, if_pos he, option_mapM_nil]
      · rw [if_neg he, if_neg he]
        by_cases hgt : 9000 < os.length
        · rw [dif_pos hgt, dif_pos ⟨hgt, by omega⟩, List.mapM_append,
            ih _ (by simp only [List.length_take]; omega),
            ih _ (by simp only [List.length_drop]; omega)]
        · rw [dif_neg hgt, dif_neg (fun hc => absurd hc.1 hgt),
            option_mapM_singleton]

/-- The outputs builder renders exactly one statement per chunk, in
order (failing whenever a chunk's render fails). -/
theorem outputs_query_chunks (os : List Output) (ti : List (Hash256 × Int)) :
    create_bulk_insert_outputs_query os ti =
      (chunks 9000 os).mapM (render_outputs_stmt ti) :=
  outputs_query_chunks_aux ti os.length os (Nat.le_refl _)

theorem inputs_query_chunks_aux (oi : List (OutPoint × UtxoSetEntry)) :
    ∀ (n : Nat) (is : List Input), is.length ≤ n →
      create_bulk_insert_inputs_query is oi =
        (chunks 9000 is).mapM (render_inputs_stmt oi) := by
  intro n
  induction n with
  | zero =>
      intro is hlen
      have hx : is = [] := by cases is <;> simp_all
      subst hx
      rw [chunks_nil, create_bulk_insert_inputs_query, option_mapM_nil]
      simp
  | succ n ih =>
      intro is hlen
      rw [create_bulk_insert_inputs_query, chunks]
      by_cases he : is.isEmpty = true
      · rw [if_pos he, if_pos he, option_mapM_nil]
      · rw [if_neg he, if_neg he]
        by_cases hgt : 9000 < is.length
        · rw [dif_pos hgt, dif_pos ⟨hgt, by omega⟩, List.mapM_append,
            ih _ (by simp only [List.length_take]; omega),
            ih _ (by simp only [List.length_drop]; omega)]
        · rw [dif_neg hgt, dif_neg (fun hc => absurd hc.1 hgt),
            option_mapM_singleton]

/-- The inputs builder renders exactly one statement per chunk, in order
(failing whenever a chunk's render fails). -/
theorem inputs_query_chunks (is : List Input)
    (oi : List (OutPoint × UtxoSetEntry)) :
    create_bulk_insert_inputs_query is oi =
      (chunks 9000 is).mapM (render_inputs_stmt oi) :=
  inputs_query_chunks_aux oi is.length is (Nat.le_refl _)

theorem fetch_query_chunks_aux :
    ∀ (n : Nat) (ps : List OutPoint), ps.length ≤ n →
      crate_fetch_outputs_query ps =
        (fetch_chunks 1500 ps).map render_fetch_stmt := by
  intro n
  induction n with
  | zero =>
      intro ps hlen
      have hx : ps = [] := by cases ps <;> simp_all
      subst hx
      rw [crate_fetch_outputs_query, fetch_chunks]
      norm_num
  | succ n ih =>
      intro ps hlen
      rw [crate_fetch_outputs_query, fetch_chunks]
      by_cases hgt : 1500 < ps.length
      · rw [dif_pos hgt, dif_pos ⟨hgt, by omega⟩, List.map_append,
          ih _ (by simp only [List.length_take]; omega),
          ih _ (by simp only [List.length_drop]; omega)]
      · rw [dif_neg hgt, dif_neg (fun hc => absurd hc.1 hgt)]
        simp

/-- The fetch-outputs builder renders exactly one statement per
fetch-chunk, in order (one statement even for the empty slice). -/
theorem fetch_query_chunks (ps : List OutPoint) :
    crate_fetch_outputs_query ps =
      (fetch_chunks 1500 ps).map render_fetch_stmt :=
  fetch_query_chunks_aux ps.length ps (Nat.le_refl _)

/-- A non-empty slice within the cap is one fetch-chunk. -/
theorem fetch_chunks_of_le (cap : Nat) (xs : List α) (hle : xs.length ≤ cap) :
    fetch_chunks cap xs = [xs] := by
  rw [fetch_chunks]
  rw [dif_neg (fun hc => absurd hc.1 (by omega))]

/-- A slice over the cap is bisected at its midpoint. -/
theorem fetch_chunks_of_gt (cap : Nat) (xs : List α) (hgt : cap < xs.length)
    (hcap : 1 ≤ cap) :
    fetch_chunks cap xs =
      fetch_chunks cap (xs.take (xs.length / 2)) ++
        fetch_chunks cap (xs.drop (xs.length / 2)) := by
  rw [fetch_chunks]
  rw [dif_pos ⟨hgt, by omega⟩]

theorem fetch_chunks_flatten_aux (cap : Nat) :
    ∀ (n : Nat) (xs : List α), xs.length ≤ n →
      (fetch_chunks cap xs).flatten = xs := by
  intro n
  induction n with
  | zero =>
      intro xs hlen
      have hx : xs = [] := by cases xs <;> simp_all
      subst hx
      rw [fetch_chunks]
      norm_num
  | succ n ih =>
      intro xs hlen
      rw [fetch_chunks]
      by_cases hc : cap < xs.length ∧ 2 ≤ xs.length
      · rw [dif_pos hc, List.flatten_append,
          ih _ (by simp only [List.length_take]; omega),
          ih _ (by simp only [List.length_drop]; omega),
          List.take_append_drop]
      · rw [dif_neg hc]
        simp

/-- The fetch-chunks concatenate, in order, to the input slice. -/
theorem fetch_chunks_flatten (cap : Nat) (xs : List α) :
    (fetch_chunks cap xs).flatten = xs :=
  fetch_chunks_flatten_aux cap xs.length xs (Nat.le_refl _)

/-- An 18001-element slice at cap 9000 is split into exactly the three
contiguous slices of sizes 9000, 4500 and 4501, in order. -/
theorem chunks_shape_18001 (xs : List α) (hlen : xs.length = 18001) :
    chunks 9000 xs =
      [xs.take 9000, (xs.drop 9000).take 4500, (xs.drop 9000).drop 4500] := by
  have ht : (xs.take 9000).length = 9000 := by
    rw [List.length_take]
    omega
  have hd : (xs.drop 9000).length = 9001 := by
    rw [List.length_drop]
    omega
  have h2 : xs.length / 2 = 9000 := by omega
  rw [chunks_of_gt 9000 xs (by omega) (by omega), h2]
  rw [chunks_of_le 9000 (xs.take 9000)
    (by intro hh; rw [hh] at ht; simp at ht) (by omega)]
  rw [chunks_of_gt 9000 (xs.drop 9000) (by omega) (by omega), hd]
  have h3 : (9001 : Nat) / 2 = 4500 := by omega
  rw [h3]
  have ht2 : ((xs.drop 9000).take 4500).length = 4500 := by
    rw [List.length_take]
    omega
  have hd2 : ((xs.drop 9000).drop 4500).length = 4501 := by
    rw [List.length_drop]
    omega
  rw [chunks_of_le 9000 ((xs.drop 9000).take 4500)
    (by intro hh; rw [hh] at ht2; simp at ht2) (by omega)]
  rw [chunks_of_le 9000 ((xs.drop 9000).drop 4500)
    (by intro hh; rw [hh] at hd2; simp at hd2) (by omega)]
  rfl

/-- C5 (amended).  Contract of the five bulk query builders.  The four
insert builders return an empty statement list on the empty slice, but the
fetch-outputs select has no empty-slice guard and renders one (degenerate)
statement even for the empty slice.  A non-empty slice within the cap
(9000 rows for the inserts, 1500 for the select) yields exactly one
statement rendering the whole slice; a longer slice is bisected at its
midpoint and each half recursively emitted — stated for every one of the
five builders.  Each builder emits exactly one statement per chunk of its
input, the chunks concatenate back to the input slice in order, and an
18001-row slice at cap 9000 yields, for each insert builder, exactly
three statements rendering the contiguous slices of sizes 9000, 4500 and
4501. -/
theorem bulk_query_builders_contract :
    (create_bulk_insert_blocks_query [] = [] ∧
      create_bulk_insert_txs_query [] = [] ∧
      (∀ ti, create_bulk_insert_outputs_query [] ti = some []) ∧
      (∀ oi, create_bulk_insert_inputs_query [] oi = some [])) ∧
    crate_fetch_outputs_query ([] : List OutPoint) = [render_fetch_stmt []] ∧
    ((∀ bs : List Block, bs ≠ [] → bs.length ≤ 9000 →
        create_bulk_insert_blocks_query bs = [render_blocks_stmt bs]) ∧
      (∀ ts : List Tx, ts ≠ [] → ts.length ≤ 9000 →
        create_bulk_insert_txs_query ts = [render_txs_stmt ts]) ∧
      (∀ (os : List Output) ti, os ≠ [] → os.length ≤ 9000 →
        create_bulk_insert_outputs_query os ti =
          (render_outputs_stmt ti os).map (fun s => [s])) ∧
      (∀ (is : List Input) oi, is ≠ [] → is.length ≤ 9000 →
        create_bulk_insert_inputs_query is oi =
          (render_inputs_stmt oi is).map (fun s => [s])) ∧
      (∀ ps : List OutPoint, ps.length ≤ 1500 →
        crate_fetch_outputs_query ps = [render_fetch_stmt ps])) ∧
    ((∀ bs : List Block, 9000 < bs.length →
        create_bulk_insert_blocks_query bs =
          create_bulk_insert_blocks_query (bs.take (bs.length / 2)) ++
            create_bulk_insert_blocks_query (bs.drop (bs.length / 2))) ∧
      (∀ ts : List Tx, 9000 < ts.length →
        create_bulk_insert_txs_query ts =
          create_bulk_insert_txs_query (ts.take (ts.length / 2)) ++
            create_bulk_insert_txs_query (ts.drop (ts.length / 2))) ∧
      (∀ (os : List Output) ti, 9000 < os.length →
        create_bulk_insert_outputs_query os ti = do
          let p1 ← create_bulk_insert_outputs_query
            (os.take (os.length / 2)) ti
          let p2 ← create_bulk_insert_outputs_query
            (os.drop (os.length / 2)) ti
          pure (p1 ++ p2)) ∧
      (∀ (is : List Input) oi, 9000 < is.length →
        create_bulk_insert_inputs_query is oi = do
          let p1 ← create_bulk_insert_inputs_query
            (is.take (is.length / 2)) oi
          let p2 ← create_bulk_insert_inputs_query
            (is.drop (is.length / 2)) oi
          pure (p1 ++ p2)) ∧
      (∀ ps : List OutPoint, 1500 < ps.length →
        crate_fetch_outputs_query ps =
          crate_fetch_outputs_query (ps.take (ps.length / 2)) ++
            crate_fetch_outputs_query (ps.drop (ps.length / 2)))) ∧
    ((∀ bs : List Block, create_bulk_insert_blocks_query bs =
        (chunks 9000 bs).map render_blocks_stmt) ∧
      (∀ ts : List Tx, create_bulk_insert_txs_query ts =
        (chunks 9000 ts).map render_txs_stmt) ∧
      (∀ (os : List Output) ti, create_bulk_insert_outputs_query os ti =
        (chunks 9000 os).mapM (render_outputs_stmt ti)) ∧
      (∀ (is : List Input) oi, create_bulk_insert_inputs_query is oi =
        (chunks 9000 is).mapM (render_inputs_stmt oi)) ∧
      (∀ ps : List OutPoint, crate_fetch_outputs_query ps =
        (fetch_chunks 1500 ps).map render_fetch_stmt)) ∧
    (∀ (α : Type) (xs : List α),
      (chunks 9000 xs).flatten = xs ∧ (fetch_chunks 1500 xs).flatten = xs) ∧
    ((∀ (α : Type) (xs : List α), xs.length = 18001 →
        chunks 9000 xs =
          [xs.take 9000, (xs.drop 9000).take 4500, (xs.drop 9000).drop 4500] ∧
        (chunks 9000 xs).map List.length = [9000, 4500, 4501]) ∧
      (∀ bs : List Block, bs.length = 18001 →
        create_bulk_insert_blocks_query bs =
          [render_blocks_stmt (bs.take 9000),
            render_blocks_stmt ((bs.drop 9000).take 4500),
            render_blocks_stmt ((bs.drop 9000).drop 4500)]) ∧
      (∀ ts : List Tx, ts.length = 18001 →
        create_bulk_insert_txs_query ts =
          [render_txs_stmt (ts.take 9000),
            render_txs_stmt ((ts.drop 9000).take 4500),
            render_txs_stmt ((ts.drop 9000).drop 4500)]) ∧
      (∀ (os : List Output) ti, os.length = 18001 →
        create_bulk_insert_outputs_query os ti =
          [os.take 9000, (os.drop 9000).take 4500,
            (os.drop 9000).drop 4500].mapM (render_outputs_stmt ti)) ∧
      (∀ (is : List Input) oi, is.length = 18001 →
        create_bulk_insert_inputs_query is oi =
          [is.take 9000, (is.drop 9000).take 4500,
            (is.drop 9000).drop 4500].mapM (render_inputs_stmt oi))) := by
  refine ⟨⟨?_, ?_, ?_, ?_⟩, ?_, ⟨?_, ?_, ?_, ?_, ?_⟩, ⟨?_, ?_, ?_, ?_, ?_⟩,
    ⟨?_, ?_, ?_, ?_, ?_⟩, ?_, ⟨?_, ?_, ?_, ?_, ?_⟩⟩
  · rw [blocks_query_chunks, chunks_nil]
    rfl
  · rw [txs_query_chunks, chunks_nil]
    rfl
  · intro ti
    rw [outputs_query_chunks, chunks_nil]
    rfl
  · intro oi
    rw [inputs_query_chunks, chunks_nil]
    rfl
  · rw [fetch_query_chunks, fetch_chunks_of_le]
    · rfl
    · simp
  · intro bs hne hle
    rw [blocks_query_chunks, chunks_of_le _ _ hne hle]
    rfl
  · intro ts hne hle
    rw [txs_query_chunks, chunks_of_le _ _ hne hle]
    rfl
  · intro os ti hne hle
    rw [outputs_query_chunks, chunks_of_le _ _ hne hle, option_mapM_singleton]
  · intro is oi hne hle
    rw [inputs_query_chunks, chunks_of_le _ _ hne hle, option_mapM_singleton]
  · intro ps hle
    rw [fetch_query_chunks, fetch_chunks_of_le _ _ hle]
    rfl
  · intro bs hgt
    have hne : ¬bs.isEmpty = true := by
      cases bs
      · simp at hgt
      · simp
    rw [create_bulk_insert_blocks_query, if_neg hne, dif_pos hgt]
  · intro ts hgt
    have hne : ¬ts.isEmpty = true := by
      cases ts
      · simp at hgt
      · simp
    rw [create_bulk_insert_txs_query, if_neg hne, dif_pos hgt]
  · intro os ti hgt
    have hne : ¬os.isEmpty = true := by
      cases os
      · simp at hgt
      · simp
    rw [create_bulk_insert_outputs_query, if_neg hne, dif_pos hgt]
  · intro is oi hgt
    have hne : ¬is.isEmpty = true := by
      cases is
      · simp at hgt
      · simp
    rw [create_bulk_insert_inputs_query, if_neg hne, dif_pos hgt]
  · intro ps hgt
    rw [crate_fetch_outputs_query, dif_pos hgt]
  · exact blocks_query_chunks
  · exact txs_query_chunks
  · exact outputs_query_chunks
  · exact inputs_query_chunks
  · exact fetch_query_chunks
  · intro α xs
    exact ⟨chunks_flatten 9000 xs, fetch_chunks_flatten 1500 xs⟩
  · intro α xs hlen
    refine ⟨chunks_shape_18001 xs hlen, ?_⟩
    rw [chunk_sizes_eq, hlen, chunk_sizes_18001]
  · intro bs hlen
    rw [blocks_query_chunks, chunks_shape_18001 bs hlen]
    rfl
  · intro ts hlen
    rw [txs_query_chunks, chunks_shape_18001 ts hlen]
    rfl
  · intro os ti hlen
    rw [outputs_query_chunks, chunks_shape_18001 os hlen]
  · intro is oi hlen
    rw [inputs_query_chunks, chunks_shape_18001 is hlen]

/-- C5 counterexample: the claim says every builder, the fetch-outputs
select included, returns an empty statement list for an empty input slice;
`crate_fetch_outputs_query` on the empty slice instead returns one
statement (its empty-slice guard is missing in the source). -/
theorem fetch_builder_nonempty_on_empty_slice :
    crate_fetch_outputs_query ([] : List OutPoint) ≠ [] := by
  rw [fetch_query_chunks, fetch_chunks_of_le]
  · simp
  · simp

/-- Witness for `bulk_query_builders_contract` at concrete inputs. -/
theorem bulk_query_builders_contract_witness :
    create_bulk_insert_blocks_query [⟨0, ⟨[1]⟩, ⟨[2]⟩⟩] =
      [render_blocks_stmt [⟨0, ⟨[1]⟩, ⟨[2]⟩⟩]] ∧
    (chunks 9000
        (List.replicate 18001 (⟨0, ⟨⟨[]⟩, 0⟩, 0, none, false⟩ : Output))).map
      List.length = [9000, 4500, 4501] ∧
    create_bulk_insert_outputs_query
        (List.replicate 18001 (⟨0, ⟨⟨[]⟩, 0⟩, 0, none, false⟩ : Output)) [] =
      [(List.replicate 18001 (⟨0, ⟨⟨[]⟩, 0⟩, 0, none, false⟩ : Output)).take
          9000,
        ((List.replicate 18001
          (⟨0, ⟨⟨[]⟩, 0⟩, 0, none, false⟩ : Output)).drop 9000).take 4500,
        ((List.replicate 18001
          (⟨0, ⟨⟨[]⟩, 0⟩, 0, none, false⟩ : Output)).drop 9000).drop
          4500].mapM (render_outputs_stmt []) ∧
    crate_fetch_outputs_query [⟨⟨[3]⟩, 0⟩] = [render_fetch_stmt [⟨⟨[3]⟩, 0⟩]] := by
  refine ⟨?_, ?_, ?_, ?_⟩
  · exact bulk_query_builders_contract.2.2.1.1 _ (by simp) (by simp)
  · exact (bulk_query_builders_contract.2.2.2.2.2.2.1 _ _
      (by rw [List.length_replicate])).2
  · exact bulk_query_builders_contract.2.2.2.2.2.2.2.2.2.1 _ []
      (by rw [List.length_replicate])
  · exact bulk_query_builders_contract.2.2.1.2.2.2.2 _ (by simp)

/-! ## The UTXO fetch path and the inputs stage (claim C3) -/

theorem option_mapM_eq_none (f : α → Option β) :
    ∀ (l : List α) (a : α), a ∈ l → f a = none → List.mapM f l = none := by
  intro l
  induction l with
  | nil =>
      intro a ha
      simp at ha
  | cons x xs ih =>
      intro a ha hf
      rw [List.mapM_cons]
      rcases List.mem_cons.mp ha with h | h
      · subst h
        rw [hf]
        rfl
      · cases hx : f x
        · rfl
        · rw [ih a h hf]
          rfl

theorem map_lookup_eq_none_iff [DecidableEq κ] (m : List (κ × ν)) (k : κ) :
    map_lookup m k = none ↔ ∀ q ∈ m, q.1 ≠ k := by
  simp [map_lookup, List.find?_eq_none]

theorem foldl_insert_lookup_none [DecidableEq κ] (key : τ → κ) (val : τ → ν) :
    ∀ (l : List τ) (acc : List (κ × ν)) (k : κ),
      map_lookup acc k = none → (∀ t ∈ l, key t ≠ k) →
      map_lookup (l.foldl (fun m t => map_insert m (key t) (val t)) acc) k =
        none := by
  intro l
  induction l with
  | nil =>
      intro acc k hacc _
      exact hacc
  | cons x xs ih =>
      intro acc k hacc hl
      rw [List.foldl_cons]
      refine ih _ _ ?_ (fun t ht => hl t (List.mem_cons_of_mem _ ht))
      rw [map_lookup_eq_none_iff]
      intro q hq
      unfold map_insert at hq
      rcases List.mem_cons.mp hq with h | h
      · subst h
        exact hl x (List.mem_cons_self _ _)
      · exact (map_lookup_eq_none_iff acc k).mp hacc q (List.mem_filter.mp h).1

/-- The key `fetch_missing` files a returned row under. -/
def fetch_row_key (row : FetchRow) : OutPoint :=
  ⟨Hash256.ofBytes row.tx_hash.reverse, row.tx_idx⟩

/-- `fetch_missing` never returns an error: whatever rows the backend
returns are collected into the map and returned with `Ok`. -/
theorem fetch_missing_never_errs (rows : List FetchRow)
    (missing : List OutPoint) :
    ∃ m, fetch_missing rows missing = Except.ok m := by
  unfold fetch_missing
  by_cases he : missing.isEmpty = true
  · rw [if_pos he]
    exact ⟨_, rfl⟩
  · rw [if_neg he]
    exact ⟨_, rfl⟩

/-- An outpoint with no matching backend row is simply absent from the map
`fetch_missing` returns (the result is still `Ok`). -/
theorem fetch_missing_omits_unmatched (rows : List FetchRow)
    (missing : List OutPoint) (p : OutPoint) (m : List (OutPoint × UtxoSetEntry))
    (hrows : ∀ row ∈ rows,
      ¬(p.txid.display_bytes = row.tx_hash ∧ p.vout = row.tx_idx))
    (hok : fetch_missing rows missing = Except.ok m) :
    map_lookup m p = none := by
  unfold fetch_missing at hok
  by_cases he : missing.isEmpty = true
  · rw [if_pos he] at hok
    cases hok
    rfl
  · rw [if_neg he] at hok
    cases hok
    refine foldl_insert_lookup_none fetch_row_key
      (fun row => (⟨row.id, row.value⟩ : UtxoSetEntry)) _ [] p rfl ?_
    intro row hrow hkey
    have hmem := (List.mem_filter.mp hrow).1
    apply hrows row hmem
    have h1 : p.txid = Hash256.ofBytes row.tx_hash.reverse := by
      rw [← hkey]
      rfl
    have h2 : p.vout = row.tx_idx := by
      rw [← hkey]
      rfl
    refine ⟨?_, h2⟩
    rw [h1]
    unfold Hash256.ofBytes Hash256.display_bytes
    simp

/-- If some input of the slice has an outpoint absent from the resolved
map, the inputs insert builder dies on the `HashMap` index. -/
theorem inputs_query_panics_on_missing (is : List Input)
    (oi : List (OutPoint × UtxoSetEntry)) (i : Input) (hi : i ∈ is)
    (hl : map_lookup oi i.out_point = none) :
    create_bulk_insert_inputs_query is oi = none := by
  rw [inputs_query_chunks]
  have hrow : render_input_row oi i = none := by
    unfold render_input_row
    rw [hl]
    rfl
  have hmem : ∃ c ∈ chunks 9000 is, i ∈ c := by
    rw [← List.mem_flatten]
    rw [chunks_flatten]
    exact hi
  rcases hmem with ⟨c, hc, hic⟩
  have hstmt : render_inputs_stmt oi c = none := by
    unfold render_inputs_stmt
    rw [option_mapM_eq_none (render_input_row oi) c i hic hrow]
    rfl
  exact option_mapM_eq_none (render_inputs_stmt oi) _ c hc hstmt

/-- C3 counterexample: the claim says `fetch_missing` returns an error
when some outpoint in the (non-empty) missing list has no matching backend
row; on an empty backend and one requested outpoint it instead returns
`Ok` with the empty map — the unmatched outpoint is silently absent. -/
theorem fetch_missing_ok_despite_missing_row :
    fetch_missing [] [⟨⟨[7]⟩, 0⟩] = Except.ok [] := by
  rfl

/-- C3 (amended).  `fetch_missing` never returns an error: it returns `Ok`
with a map covering only the outpoints that matched a backend row, and an
unmatched outpoint is absent from that map.  The failure is still fatal to
the pipeline, but by a panic, not an error return: when an input's
outpoint ends up absent from the merged map (not found in the UTXO cache
and unmatched in the backend), the inputs stage dies building the insert
statement (`outputs[&input.out_point]`). -/
theorem fetch_missing_partial_and_inputs_stage_panics :
    (∀ (rows : List FetchRow) (missing : List OutPoint),
      ∃ m, fetch_missing rows missing = Except.ok m) ∧
    (∀ (rows : List FetchRow) (missing : List OutPoint) (p : OutPoint)
        (m : List (OutPoint × UtxoSetEntry)),
      (∀ row ∈ rows,
        ¬(p.txid.display_bytes = row.tx_hash ∧ p.vout = row.tx_idx)) →
      fetch_missing rows missing = Except.ok m →
      map_lookup m p = none) ∧
    (∀ (mode : PipelineMode) (conn : Conn)
        (cache : List (OutPoint × UtxoSetEntry)) (msg : InputsMsg)
        (i : Input) (m : List (OutPoint × UtxoSetEntry)),
      i ∈ msg.inputs →
      merged_output_ids cache conn.fetch_rows msg.inputs = some m →
      map_lookup m i.out_point = none →
      inputs_step mode conn cache msg = none) := by
  refine ⟨fetch_missing_never_errs, fetch_missing_omits_unmatched, ?_⟩
  intro mode conn cache msg i m hi hm hl
  have hq := inputs_query_panics_on_missing msg.inputs m i hi hl
  simp [inputs_step, hm, hq]

/-- Witness for `fetch_missing_partial_and_inputs_stage_panics`: one input
spending an outpoint that is neither in the UTXO cache nor in the backend
kills the inputs stage, while `fetch_missing` itself reports `Ok`. -/
theorem fetch_missing_partial_and_inputs_stage_panics_witness :
    inputs_step PipelineMode.Bulk ⟨1, 1, 1, 1, []⟩ []
      ⟨0, [], [⟨0, ⟨⟨[7]⟩, 0⟩⟩], []⟩ = none := by
  refine fetch_missing_partial_and_inputs_stage_panics.2.2
    PipelineMode.Bulk ⟨1, 1, 1, 1, []⟩ [] ⟨0, [], [⟨0, ⟨⟨[7]⟩, 0⟩⟩], []⟩
    ⟨0, ⟨⟨[7]⟩, 0⟩⟩ [] ?_ ?_ ?_
  · simp
  · rfl
  · rfl

/-! ## Per-stage cursor discipline (claim C6) -/

/-- C6 (amended).  Only the txs and outputs stages keep a cached
next-surrogate-id cursor: each checks it for equality against the
backend's sequence at the start of every batch (a mismatch is fatal) and
advances it by exactly the batch's row count for its table.  The inputs
and blocks stages keep no cursor and never consult their tables' sequence
state: their behaviour is identical for arbitrary sequence values. -/
theorem stage_cursor_discipline :
    (∀ (mode : PipelineMode) (conn : Conn) (next_id : Int) (batch_id : Nat)
        (parsed : List Parsed),
      next_id ≠ conn.txs_seq →
      txs_step mode conn next_id batch_id parsed = none) ∧
    (∀ (mode : PipelineMode) (conn : Conn) (next_id : Int) (batch_id : Nat)
        (parsed : List Parsed),
      (txs_step mode conn next_id batch_id parsed).isSome = true →
      (txs_step mode conn next_id batch_id parsed).map TxsStepResult.next_id =
        some (next_id + (batch_txs parsed).length)) ∧
    (∀ (mode : PipelineMode) (conn : Conn) (next_id : Int)
        (cache : List (OutPoint × UtxoSetEntry)) (msg : OutputsMsg),
      next_id ≠ conn.outputs_seq →
      outputs_step mode conn next_id cache msg = none) ∧
    (∀ (mode : PipelineMode) (conn : Conn) (next_id : Int)
        (cache : List (OutPoint × UtxoSetEntry)) (msg : OutputsMsg),
      (outputs_step mode conn next_id cache msg).isSome = true →
      (outputs_step mode conn next_id cache msg).map
          OutputsStepResult.next_id =
        some (next_id + msg.outputs.length)) ∧
    (∀ (mode : PipelineMode) (conn conn' : Conn)
        (cache : List (OutPoint × UtxoSetEntry)) (msg : InputsMsg),
      conn.fetch_rows = conn'.fetch_rows →
      inputs_step mode conn cache msg = inputs_step mode conn' cache msg) ∧
    (∀ (mode : PipelineMode) (conn conn' : Conn)
        (fl : List (Nat × Hash256)) (msg : BlocksMsg),
      blocks_step mode conn fl msg = blocks_step mode conn' fl msg) := by
  refine ⟨?_, ?_, ?_, ?_, ?_, ?_⟩
  · intro mode conn next_id batch_id parsed hne
    unfold txs_step
    rw [if_neg hne]
  · intro mode conn next_id batch_id parsed hs
    by_cases hc : next_id = conn.txs_seq
    · simp [txs_step, hc]
    · rw [(by unfold txs_step; rw [if_neg hc] :
        txs_step mode conn next_id batch_id parsed = none)] at hs
      simp at hs
  · intro mode conn next_id cache msg hne
    unfold outputs_step
    rw [if_neg hne]
  · intro mode conn next_id cache msg hs
    by_cases hc : next_id = conn.outputs_seq
    · cases hq : create_bulk_insert_outputs_query msg.outputs msg.tx_ids with
      | none =>
          rw [(by unfold outputs_step; rw [if_pos hc, hq]; rfl :
            outputs_step mode conn next_id cache msg = none)] at hs
          simp at hs
      | some q => simp [outputs_step, hc, hq]
    · rw [(by unfold outputs_step; rw [if_neg hc] :
        outputs_step mode conn next_id cache msg = none)] at hs
      simp at hs
  · intro mode conn conn' cache msg hfr
    unfold inputs_step
    rw [hfr]
  · intro mode conn conn' fl msg
    rfl

/-- C6 counterexample: the claim says each of the four stages re-checks a
cached cursor against its table's backend sequence at every batch start,
a mismatch being fatal.  The inputs and blocks stages consult no sequence
at all: with the batch below fully resolvable, they behave identically —
and succeed — whether their table's sequence state says 7 or 999, so no
mismatch is ever detected, let alone fatal. -/
theorem inputs_blocks_stage_no_sequence_check :
    (inputs_step PipelineMode.Bulk ⟨1, 1, 999, 1, []⟩ []
        ⟨0, [⟨0, ⟨[1]⟩, ⟨[2]⟩⟩], [], []⟩).isSome = true ∧
    inputs_step PipelineMode.Bulk ⟨1, 1, 999, 1, []⟩ []
        ⟨0, [⟨0, ⟨[1]⟩, ⟨[2]⟩⟩], [], []⟩ =
      inputs_step PipelineMode.Bulk ⟨1, 1, 7, 1, []⟩ []
        ⟨0, [⟨0, ⟨[1]⟩, ⟨[2]⟩⟩], [], []⟩ ∧
    (blocks_step PipelineMode.Bulk ⟨1, 1, 1, 999, []⟩ [(0, ⟨[1]⟩)]
        ⟨0, [⟨0, ⟨[1]⟩, ⟨[2]⟩⟩], []⟩).isSome = true ∧
    blocks_step PipelineMode.Bulk ⟨1, 1, 1, 999, []⟩ [(0, ⟨[1]⟩)]
        ⟨0, [⟨0, ⟨[1]⟩, ⟨[2]⟩⟩], []⟩ =
      blocks_step PipelineMode.Bulk ⟨1, 1, 1, 7, []⟩ [(0, ⟨[1]⟩)]
        ⟨0, [⟨0, ⟨[1]⟩, ⟨[2]⟩⟩], []⟩ := by
  have hb : create_bulk_insert_inputs_query ([] : List Input)
      ([] : List (OutPoint × UtxoSetEntry)) = some [] := by
    rw [inputs_query_chunks, chunks_nil]
    rfl
  refine ⟨?_, rfl, ?_, rfl⟩
  · simp [inputs_step, merged_output_ids, utxo_consume, fetch_missing, hb]
  · simp [blocks_step, remove_in_flight, map_remove, map_lookup]

/-- Witness for `stage_cursor_discipline` at concrete inputs: the txs and
outputs stages die on a cursor/sequence mismatch (4 against 5), succeed
on a match and advance by the batch's row count, and the inputs and
blocks stages are sequence-independent. -/
theorem stage_cursor_discipline_witness :
    txs_step PipelineMode.Bulk ⟨5, 1, 1, 1, []⟩ 4 0 [] = none ∧
    (txs_step PipelineMode.Bulk ⟨0, 1, 1, 1, []⟩ 0 0 []).map
        TxsStepResult.next_id =
      some (0 + (batch_txs ([] : List Parsed)).length) ∧
    outputs_step PipelineMode.Bulk ⟨1, 5, 1, 1, []⟩ 4 []
      ⟨0, [], [], [], [], []⟩ = none ∧
    inputs_step PipelineMode.Bulk ⟨1, 1, 5, 1, []⟩ [] ⟨0, [], [], []⟩ =
      inputs_step PipelineMode.Bulk ⟨1, 1, 7, 1, []⟩ [] ⟨0, [], [], []⟩ ∧
    blocks_step PipelineMode.Bulk ⟨1, 1, 1, 5, []⟩ [] ⟨0, [], []⟩ =
      blocks_step PipelineMode.Bulk ⟨1, 1, 1, 7, []⟩ [] ⟨0, [], []⟩ := by
  refine ⟨?_, ?_, ?_, ?_, ?_⟩
  · exact stage_cursor_discipline.1 _ _ _ _ _ (by decide)
  · exact stage_cursor_discipline.2.1 _ _ _ _ _ rfl
  · exact stage_cursor_discipline.2.2.1 _ _ _ _ _ (by decide)
  · exact stage_cursor_discipline.2.2.2.2.1 _ _ _ _ _ rfl
  · exact stage_cursor_discipline.2.2.2.2.2 _ _ _ _ _

/-! ## Atomic mode commits the whole batch in one transaction (claim C1) -/

theorem outputs_query_empty (ti : List (Hash256 × Int)) :
    create_bulk_insert_outputs_query [] ti = some [] := by
  rw [outputs_query_chunks, chunks_nil]
  rfl

theorem inputs_query_empty (oi : List (OutPoint × UtxoSetEntry)) :
    create_bulk_insert_inputs_query [] oi = some [] := by
  rw [inputs_query_chunks, chunks_nil]
  rfl

/-- C1.  In atomic mode, for every batch that flows through the pipeline,
the txs, outputs and inputs stages execute no transaction of their own
(each only appends its generated statements to `pending_queries`), and the
blocks stage executes exactly one backend transaction containing, in
stage order, every accumulated statement of the batch: the txs insert
statements, the outputs insert statements, the inputs insert statements
and the blocks insert statements.  Either that single transaction commits
(all four tables observe the batch) or nothing does. -/
theorem atomic_mode_single_transaction
    (conn : Conn) (tn onid : Int) (cache : List (OutPoint × UtxoSetEntry))
    (fl : List (Nat × Hash256)) (batch_id : Nat) (parsed : List Parsed)
    (outQs inQs : List String) (m : List (OutPoint × UtxoSetEntry))
    (h1 : tn = conn.txs_seq) (h2 : onid = conn.outputs_seq)
    (houts : create_bulk_insert_outputs_query (batch_outputs parsed)
        (assign_tx_ids (batch_txs parsed) tn) = some outQs)
    (hm : merged_output_ids
        ((batch_outputs parsed).enum.foldl
          (fun c p => utxo_insert c p.2.out_point (onid + p.1) p.2.value) cache)
        conn.fetch_rows (batch_inputs parsed) = some m)
    (hins : create_bulk_insert_inputs_query (batch_inputs parsed) m = some inQs)
    (hne : parsed ≠ [])
    (hreg : (remove_in_flight fl (batch_blocks parsed)).2 = false) :
    ∃ res,
      pipeline_batch PipelineMode.Atomic conn tn onid cache fl batch_id parsed =
        some res ∧
      res.txs_executed = [] ∧
      res.outputs_executed = [] ∧
      res.inputs_executed = [] ∧
      res.blocks_executed =
        [create_bulk_insert_txs_query (batch_txs parsed) ++ outQs ++ inQs ++
          create_bulk_insert_blocks_query (batch_blocks parsed)] := by
  have ht : txs_step PipelineMode.Atomic conn tn batch_id parsed =
      some ⟨[], tn + (batch_txs parsed).length,
        ⟨batch_id, batch_blocks parsed, batch_outputs parsed,
          batch_inputs parsed, assign_tx_ids (batch_txs parsed) tn,
          [create_bulk_insert_txs_query (batch_txs parsed)]⟩⟩ := by
    unfold txs_step
    rw [if_pos h1]
    rfl
  have ho : outputs_step PipelineMode.Atomic conn onid cache
      ⟨batch_id, batch_blocks parsed, batch_outputs parsed,
        batch_inputs parsed, assign_tx_ids (batch_txs parsed) tn,
        [create_bulk_insert_txs_query (batch_txs parsed)]⟩ =
      some ⟨[], onid + (batch_outputs parsed).length,
        (batch_outputs parsed).enum.foldl
          (fun c p => utxo_insert c p.2.out_point (onid + p.1) p.2.value) cache,
        ⟨batch_id, batch_blocks parsed, batch_inputs parsed,
          [create_bulk_insert_txs_query (batch_txs parsed), outQs]⟩⟩ := by
    unfold outputs_step
    rw [if_pos h2]
    show (create_bulk_insert_outputs_query (batch_outputs parsed)
        (assign_tx_ids (batch_txs parsed) tn)).map _ = _
    rw [houts]
    rfl
  have hi : inputs_step PipelineMode.Atomic conn
      ((batch_outputs parsed).enum.foldl
        (fun c p => utxo_insert c p.2.out_point (onid + p.1) p.2.value) cache)
      ⟨batch_id, batch_blocks parsed, batch_inputs parsed,
        [create_bulk_insert_txs_query (batch_txs parsed), outQs]⟩ =
      some ⟨[],
        (utxo_consume
          ((batch_outputs parsed).enum.foldl
            (fun c p => utxo_insert c p.2.out_point (onid + p.1) p.2.value) cache)
          ((batch_inputs parsed).map Input.out_point)).2.2,
        ⟨batch_id, batch_blocks parsed,
          [create_bulk_insert_txs_query (batch_txs parsed), outQs, inQs]⟩⟩ := by
    unfold inputs_step
    show (match merged_output_ids
        ((batch_outputs parsed).enum.foldl
          (fun c p => utxo_insert c p.2.out_point (onid + p.1) p.2.value) cache)
        conn.fetch_rows (batch_inputs parsed) with
      | none => none
      | some output_ids => _) = _
    rw [hm]
    show (create_bulk_insert_inputs_query (batch_inputs parsed) m).map _ = _
    rw [hins]
    rfl
  have hbe : (batch_blocks parsed).isEmpty = false := by
    rw [List.isEmpty_eq_false]
    unfold batch_blocks
    simp [hne]
  have hb : blocks_step PipelineMode.Atomic conn fl
      ⟨batch_id, batch_blocks parsed,
        [create_bulk_insert_txs_query (batch_txs parsed), outQs, inQs]⟩ =
      some ⟨[create_bulk_insert_txs_query (batch_txs parsed) ++ outQs ++
          inQs ++ create_bulk_insert_blocks_query (batch_blocks parsed)],
        (remove_in_flight fl (batch_blocks parsed)).1⟩ := by
    unfold blocks_step
    show (if (batch_blocks parsed).isEmpty = true then none else _) = _
    rw [hbe]
    show (if (remove_in_flight fl (batch_blocks parsed)).2 = true
        then none else _) = _
    rw [hreg]
    simp [PipelineMode.is_atomic]
  refine ⟨⟨[], [], [],
      [create_bulk_insert_txs_query (batch_txs parsed) ++ outQs ++ inQs ++
        create_bulk_insert_blocks_query (batch_blocks parsed)],
      tn + (batch_txs parsed).length, onid + (batch_outputs parsed).length,
      (utxo_consume
        ((batch_outputs parsed).enum.foldl
          (fun c p => utxo_insert c p.2.out_point (onid + p.1) p.2.value) cache)
        ((batch_inputs parsed).map Input.out_point)).2.2,
      (remove_in_flight fl (batch_blocks parsed)).1⟩,
    ?_, rfl, rfl, rfl, rfl⟩
  unfold pipeline_batch
  rw [ht]
  show (outputs_step PipelineMode.Atomic conn onid cache _).bind _ = _
  rw [ho]
  show (inputs_step PipelineMode.Atomic conn _ _).bind _ = _
  rw [hi]
  show (blocks_step PipelineMode.Atomic conn fl _).map _ = _
  rw [hb]
  rfl

/-- Witness for `atomic_mode_single_transaction`: a one-block batch (one
coinbase tx, no outputs, no inputs) through the atomic pipeline — the
first three stages execute nothing and the blocks stage executes the
single combined transaction. -/
theorem atomic_mode_single_transaction_witness :
    (pipeline_batch PipelineMode.Atomic ⟨1, 1, 1, 1, []⟩ 1 1 [] [(0, ⟨[1]⟩)] 0
        [⟨⟨0, ⟨[1]⟩, ⟨[2]⟩⟩, [⟨0, ⟨[3]⟩, true⟩], [], []⟩]).map
      (fun res => (res.txs_executed, res.outputs_executed,
        res.inputs_executed, res.blocks_executed)) =
    some ([], [], [],
      [create_bulk_insert_txs_query
          (batch_txs [⟨⟨0, ⟨[1]⟩, ⟨[2]⟩⟩, [⟨0, ⟨[3]⟩, true⟩], [], []⟩]) ++
        [] ++ [] ++
        create_bulk_insert_blocks_query
          (batch_blocks [⟨⟨0, ⟨[1]⟩, ⟨[2]⟩⟩, [⟨0, ⟨[3]⟩, true⟩], [], []⟩])]) := by
  obtain ⟨res, hp, e1, e2, e3, e4⟩ :=
    atomic_mode_single_transaction ⟨1, 1, 1, 1, []⟩ 1 1 [] [(0, ⟨[1]⟩)] 0
      [⟨⟨0, ⟨[1]⟩, ⟨[2]⟩⟩, [⟨0, ⟨[3]⟩, true⟩], [], []⟩] [] [] []
      rfl rfl (outputs_query_empty _) rfl (inputs_query_empty _)
      (by simp) rfl
  rw [hp]
  simp [e1, e2, e3, e4]

/-! ## Monotone tables: get_max_height and the recovery truncator -/

theorem mono_height_le {t : List TableRow} (hm : Mono t) {r s : TableRow}
    (hr : r ∈ t) (hs : s ∈ t) (hid : r.id ≤ s.id) : r.height ≤ s.height := by
  obtain ⟨i, hi⟩ := List.mem_iff_get.mp hr
  obtain ⟨j, hj⟩ := List.mem_iff_get.mp hs
  have hp := List.pairwise_iff_get.mp hm
  rcases lt_trichotomy i j with h | h | h
  · have hij := hp i j h
    rw [hi, hj] at hij
    exact hij.2
  · subst h
    rw [hi] at hj
    rw [hj]
  · have hij := hp j i h
    rw [hi, hj] at hij
    omega

/-- Under the monotonicity invariant, the height of the largest-id row is
an upper bound of the height column and is attained. -/
theorem get_max_height_spec (blocks : List TableRow) (hm : Mono blocks)
    (hne : blocks ≠ []) :
    ∃ H, get_max_height blocks = some H ∧ (∀ r ∈ blocks, r.height ≤ H) ∧
      ∃ r ∈ blocks, r.height = H := by
  cases hmax : blocks.argmax TableRow.id with
  | none => exact absurd (List.argmax_eq_none.mp hmax) hne
  | some rm =>
      have hrm : rm ∈ blocks.argmax TableRow.id := by
        rw [hmax]
        rfl
      have hmem : rm ∈ blocks := List.argmax_mem hrm
      refine ⟨rm.height, ?_, ?_, rm, hmem, rfl⟩
      · unfold get_max_height max_id_row
        rw [hmax]
        rfl
      · intro r hr
        exact mono_height_le hm hr hmem (List.le_of_mem_argmax hr hrm)

/-- C10.  `get_max_height` runs `SELECT height FROM blocks ORDER BY id
DESC LIMIT 1`, i.e. returns the height of the block row with the largest
surrogate id; for every store state satisfying the monotonicity invariant
that value is exactly the maximum committed block height (an upper bound
of the height column, and attained by some row). -/
theorem get_max_height_top_id_is_max_height (blocks : List TableRow)
    (hm : Mono blocks) (hne : blocks ≠ []) :
    ∃ H, get_max_height blocks = some H ∧ (∀ r ∈ blocks, r.height ≤ H) ∧
      ∃ r ∈ blocks, r.height = H :=
  get_max_height_spec blocks hm hne

/-- Witness for `get_max_height_top_id_is_max_height` on a concrete
two-row blocks table. -/
theorem get_max_height_top_id_is_max_height_witness :
    get_max_height [⟨1, 0⟩, ⟨2, 5⟩] = some 5 := by
  obtain ⟨H, hH, hub, r, hr, hrH⟩ :=
    get_max_height_top_id_is_max_height [⟨1, 0⟩, ⟨2, 5⟩] (by decide) (by simp)
  have h5 : 5 ≤ H := hub ⟨2, 5⟩ (by simp)
  have hmem : r = (⟨1, 0⟩ : TableRow) ∨ r = (⟨2, 5⟩ : TableRow) := by
    simpa using hr
  have hH5 : H = 5 := by
    rcases hmem with h | h <;> subst h <;> simp at hrH <;> omega
  rw [hH, hH5]

theorem wipe_pass_length_le (h : Nat) (t : List TableRow) :
    (wipe_pass h t).length ≤ t.length := by
  unfold wipe_pass
  cases (max_id_row t).map TableRow.id with
  | none => exact Nat.le_refl _
  | some m => exact t.length_filter_le _

theorem wipe_loop_eq_aux (h : Nat) :
    ∀ (n : Nat) (t : List TableRow), t.length ≤ n → Mono t →
      wipe_gt_height_from_id_sorted_table h t =
        t.filter (fun r => decide (r.height ≤ h)) := by
  intro n
  induction n with
  | zero =>
      intro t hlen _
      have ht : t = [] := by cases t <;> simp_all
      subst ht
      rw [wipe_gt_height_from_id_sorted_table]
      simp [wipe_pass, max_id_row]
  | succ n ih =>
      intro t hlen hm
      rw [wipe_gt_height_from_id_sorted_table]
      by_cases hl : (wipe_pass h t).length = t.length
      · rw [dif_pos hl]
        cases hmax : (max_id_row t).map TableRow.id with
        | none =>
            have h0 : List.argmax TableRow.id t = none := by
              cases hq : List.argmax TableRow.id t
              · rfl
              · unfold max_id_row at hmax
                rw [hq] at hmax
                simp at hmax
            have ht : t = [] := List.argmax_eq_none.mp h0
            subst ht
            unfold wipe_pass
            rw [hmax]
            rfl
        | some m =>
            have hfil : wipe_pass h t =
                t.filter (fun r =>
                  !(decide (m - 100000 < r.id) && decide (h < r.height))) := by
              unfold wipe_pass
              rw [hmax]
            have hkeep : ∀ r ∈ t,
                (!(decide (m - 100000 < r.id) && decide (h < r.height))) =
                  true := by
              apply List.filter_eq_self.mp
              apply List.Sublist.eq_of_length (List.filter_sublist t)
              rw [← hfil]
              exact hl
            have hall : ∀ r ∈ t, r.height ≤ h := by
              intro r hr
              by_contra hrh
              obtain ⟨rm, hrm, hrmid⟩ := Option.map_eq_some'.mp hmax
              have hrm' : rm ∈ List.argmax TableRow.id t := by
                unfold max_id_row at hrm
                rw [hrm]
                rfl
              have hmem : rm ∈ t := List.argmax_mem hrm'
              have hid : r.id ≤ rm.id := List.le_of_mem_argmax hr hrm'
              have hh : r.height ≤ rm.height := mono_height_le hm hr hmem hid
              have hk := hkeep rm hmem
              simp only [Bool.not_eq_true', Bool.and_eq_false_iff,
                decide_eq_false_iff_not] at hk
              rcases hk with hk | hk
              · omega
              · omega
            have ht' : wipe_pass h t = t := by
              rw [hfil]
              exact List.filter_eq_self.mpr hkeep
            rw [ht']
            symm
            apply List.filter_eq_self.mpr
            intro r hr
            simpa using hall r hr
      · rw [dif_neg hl]
        have hmax : ∃ m, (max_id_row t).map TableRow.id = some m := by
          cases hq : (max_id_row t).map TableRow.id with
          | none =>
              exfalso
              apply hl
              unfold wipe_pass
              rw [hq]
          | some m => exact ⟨m, rfl⟩
        obtain ⟨m, hmax⟩ := hmax
        have hfil : wipe_pass h t =
            t.filter (fun r =>
              !(decide (m - 100000 < r.id) && decide (h < r.height))) := by
          unfold wipe_pass
          rw [hmax]
        have hmono' : Mono (wipe_pass h t) := by
          rw [hfil]
          exact List.Pairwise.sublist (List.filter_sublist t) hm
        have hlen' : (wipe_pass h t).length ≤ n := by
          have h1 := wipe_pass_length_le h t
          omega
        rw [ih _ hlen' hmono', hfil, List.filter_filter]
        apply List.filter_congr
        intro r _
        by_cases hrh : r.height ≤ h
        · simp [hrh]
        · simp [hrh]

/-- The truncator loop removes exactly the rows with height above the
witness from a monotone table. -/
theorem wipe_loop_eq (h : Nat) (t : List TableRow) (hm : Mono t) :
    wipe_gt_height_from_id_sorted_table h t =
      t.filter (fun r => decide (r.height ≤ h)) :=
  wipe_loop_eq_aux h t.length t (Nat.le_refl _) hm

/-- Supporting lemma for claim C2: the startup recovery truncation is
exact for any table whose *window column* is monotone — it removes
exactly the rows whose height exceeds the maximum committed block height
H (read from the blocks table), leaving every other row unchanged, and
each loop terminates (it is a total function) with no such orphan
remaining.  Under the spec's invariant this covers txs and outputs
(windowed by their own id); it covers inputs only if they are windowed by
the inputs' own id, which the source does not do (see
`inputs_truncation_leaves_orphan`). -/
theorem recovery_truncation_exact (blocks txs outputs inputs : List TableRow)
    (hmb : Mono blocks) (hne : blocks ≠ []) (hmt : Mono txs)
    (hmo : Mono outputs) (hmi : Mono inputs) :
    ∃ H, get_max_height blocks = some H ∧
      (∀ r ∈ blocks, r.height ≤ H) ∧ (∃ r ∈ blocks, r.height = H) ∧
      wipe_inconsistent_data blocks txs outputs inputs =
        (txs.filter (fun r => decide (r.height ≤ H)),
          outputs.filter (fun r => decide (r.height ≤ H)),
          inputs.filter (fun r => decide (r.height ≤ H))) := by
  obtain ⟨H, hH, hub, hex⟩ := get_max_height_spec blocks hmb hne
  refine ⟨H, hH, hub, hex, ?_⟩
  unfold wipe_inconsistent_data
  rw [hH]
  show (wipe_gt_height_from_id_sorted_table H txs,
      wipe_gt_height_from_id_sorted_table H outputs,
      wipe_gt_height_from_id_sorted_table H inputs) = _
  rw [wipe_loop_eq H txs hmt, wipe_loop_eq H outputs hmo,
    wipe_loop_eq H inputs hmi]

/-- Instance of `recovery_truncation_exact`: blocks committed up to height
1 while the tables hold orphan rows of height 2 in monotone window
columns; recovery deletes exactly the orphans. -/
theorem recovery_truncation_exact_witness :
    wipe_inconsistent_data [⟨1, 0⟩, ⟨2, 1⟩] [⟨1, 0⟩, ⟨2, 1⟩, ⟨3, 2⟩]
        [⟨1, 0⟩, ⟨2, 2⟩] [⟨1, 1⟩, ⟨2, 2⟩] =
      ([⟨1, 0⟩, ⟨2, 1⟩, ⟨3, 2⟩].filter
          (fun r => decide (TableRow.height r ≤ 1)),
        [⟨1, 0⟩, ⟨2, 2⟩].filter (fun r => decide (TableRow.height r ≤ 1)),
        [⟨1, 1⟩, ⟨2, 2⟩].filter (fun r => decide (TableRow.height r ≤ 1))) := by
  obtain ⟨H, hH, _, _, hwipe⟩ :=
    recovery_truncation_exact [⟨1, 0⟩, ⟨2, 1⟩] [⟨1, 0⟩, ⟨2, 1⟩, ⟨3, 2⟩]
      [⟨1, 0⟩, ⟨2, 2⟩] [⟨1, 1⟩, ⟨2, 2⟩]
      (by decide) (by simp) (by decide) (by decide) (by decide)
  have h1 : get_max_height [⟨1, 0⟩, ⟨2, 1⟩] = some 1 := by decide
  rw [h1] at hH
  cases hH
  exact hwipe

/-- C2.  The recovery truncation does not remove exactly the rows above
the committed height: the inputs table is windowed by `output_id`
(pg.rs:666), the id of the *spent* output, which the spec's monotonicity
invariant does not make monotone.  Failing input: blocks are committed to
height 1 (ids 1, 2); the inputs table holds, in insertion order, a row
spending output 200000 at height 1 and a crash-orphan row spending the
old output 1 at height 5 — the inputs' own surrogate ids and heights grow
together (the claim's invariant holds; heights are nondecreasing along
insertion), but the orphan's `output_id` 1 lies outside the top-100,000
window of `output_id`, so the first pass deletes zero rows, the loop
exits, and the orphan row of height 5 > 1 survives recovery, contrary to
the claim. -/
theorem inputs_truncation_leaves_orphan :
    wipe_inconsistent_data [⟨1, 0⟩, ⟨2, 1⟩] [] [] [⟨200000, 1⟩, ⟨1, 5⟩] =
      ([], [], [⟨200000, 1⟩, ⟨1, 5⟩]) ∧
    get_max_height [⟨1, 0⟩, ⟨2, 1⟩] = some 1 ∧
    Mono [⟨1, 0⟩, ⟨2, 1⟩] ∧
    List.Pairwise (fun (r s : TableRow) => r.height ≤ s.height)
      [⟨200000, 1⟩, ⟨1, 5⟩] ∧
    (⟨1, 5⟩ : TableRow) ∈ [(⟨200000, 1⟩ : TableRow), ⟨1, 5⟩] ∧
    1 < (⟨1, 5⟩ : TableRow).height := by
  refine ⟨?_, by decide, by decide, by decide, by decide, by decide⟩
  have h1 : get_max_height [⟨1, 0⟩, ⟨2, 1⟩] = some 1 := by decide
  unfold wipe_inconsistent_data
  rw [h1]
  show (wipe_gt_height_from_id_sorted_table 1 [],
      wipe_gt_height_from_id_sorted_table 1 [],
      wipe_gt_height_from_id_sorted_table 1 [⟨200000, 1⟩, ⟨1, 5⟩]) = _
  have he : wipe_gt_height_from_id_sorted_table 1 ([] : List TableRow) = [] := by
    rw [wipe_gt_height_from_id_sorted_table]
    simp [wipe_pass, max_id_row]
  have hi : wipe_gt_height_from_id_sorted_table 1 [⟨200000, 1⟩, ⟨1, 5⟩] =
      [⟨200000, 1⟩, ⟨1, 5⟩] := by
    rw [wipe_gt_height_from_id_sorted_table, dif_pos (by decide)]
    decide
  rw [he, hi]

/-! ## Hash round trip (claim C4) -/

theorem cached_max_fold_some :
    ∀ (bs : List Block) (x : Nat), ∃ M,
      bs.foldl (fun m b => update_max_height m b.height) (some x) = some M ∧
        x ≤ M := by
  intro bs
  induction bs with
  | nil => exact fun x => ⟨x, rfl, Nat.le_refl x⟩
  | cons a bs ih =>
      intro x
      obtain ⟨M, hM, hle⟩ := ih (max x a.height)
      refine ⟨M, ?_, ?_⟩
      · rw [List.foldl_cons]
        exact hM
      · omega

theorem cached_max_of_mem (bs : List Block) (b : Block) (hb : b ∈ bs) :
    ∀ acc : Option Nat, ∃ M,
      bs.foldl (fun m x => update_max_height m x.height) acc = some M ∧
        b.height ≤ M := by
  induction bs with
  | nil => simp at hb
  | cons a bs ih =>
      intro acc
      rcases List.mem_cons.mp hb with h | h
      · subst h
        cases acc with
        | none =>
            obtain ⟨M, hM, hle⟩ := cached_max_fold_some bs b.height
            exact ⟨M, hM, hle⟩
        | some x =>
            obtain ⟨M, hM, hle⟩ := cached_max_fold_some bs (max x b.height)
            refine ⟨M, hM, by omega⟩
      · exact ih h _

theorem blocks_table_find (bs : List Block)
    (hnd : (bs.map Block.height).Nodup) (b : Block) (hb : b ∈ bs) :
    (blocks_table_of bs).find? (fun r => decide (r.height = b.height)) =
      some ⟨b.height, b.hash.display_bytes, b.prev_hash.display_bytes⟩ := by
  induction bs with
  | nil => simp at hb
  | cons a bs ih =>
      have hnd' : (bs.map Block.height).Nodup := (List.nodup_cons.mp hnd).2
      have hna : a.height ∉ bs.map Block.height := (List.nodup_cons.mp hnd).1
      by_cases hab : a.height = b.height
      · have hba : b = a := by
          rcases List.mem_cons.mp hb with h | h
          · exact h
          · exact absurd (hab ▸ List.mem_map_of_mem Block.height h) hna
        subst hba
        unfold blocks_table_of
        rw [List.map_cons]
        exact List.find?_cons_of_pos _ (by simp)
      · have hbs : b ∈ bs := by
          rcases List.mem_cons.mp hb with h | h
          · exact absurd (congrArg Block.height h.symm) hab
          · exact h
        unfold blocks_table_of
        rw [List.map_cons]
        rw [List.find?_cons_of_neg _ (by simp [hab])]
        exact ih hnd' hbs

/-- C4.  Round trip: ingesting a set of blocks with unique heights in bulk
mode and then reading `get_hash_by_height` at any ingested height returns
that block's hash with byte orientation preserved — the insert stores the
hex of the display bytes, the read reverses the stored bytes back, and
the two reversals cancel. -/
theorem ingest_get_hash_by_height_round_trip (bs : List Block)
    (hnd : (bs.map Block.height).Nodup) (b : Block) (hb : b ∈ bs) :
    get_hash_by_height (cached_max_of bs) (blocks_table_of bs) b.height =
      some b.hash := by
  obtain ⟨M, hM, hbM⟩ := cached_max_of_mem bs b hb none
  unfold get_hash_by_height cached_max_of
  rw [hM]
  show (if M < b.height then none
    else ((blocks_table_of bs).find? (fun r => decide (r.height = b.height))).map
      (fun r => Hash256.ofBytes r.hash.reverse)) = some b.hash
  rw [if_neg (by omega), blocks_table_find bs hnd b hb]
  simp [Hash256.ofBytes, Hash256.display_bytes]

/-- Witness for `ingest_get_hash_by_height_round_trip`: two blocks at
heights 0 and 1; reading height 1 returns the second block's hash. -/
theorem ingest_get_hash_by_height_round_trip_witness :
    get_hash_by_height
      (cached_max_of [⟨0, ⟨[1, 2]⟩, ⟨[0]⟩⟩, ⟨1, ⟨[3, 4]⟩, ⟨[1, 2]⟩⟩])
      (blocks_table_of [⟨0, ⟨[1, 2]⟩, ⟨[0]⟩⟩, ⟨1, ⟨[3, 4]⟩, ⟨[1, 2]⟩⟩]) 1 =
      some ⟨[3, 4]⟩ :=
  ingest_get_hash_by_height_round_trip
    [⟨0, ⟨[1, 2]⟩, ⟨[0]⟩⟩, ⟨1, ⟨[3, 4]⟩, ⟨[1, 2]⟩⟩] (by decide)
    ⟨1, ⟨[3, 4]⟩, ⟨[1, 2]⟩⟩ (by simp)

/-! ## Reorg path (claim C7) and the batch aggregator (claims C8, C9) -/

/-- C7.  `reorg_at_height` issues `REMOVE FROM ... WHERE height >= $1`
statements, which are not SQL the backend accepts: on a store holding
blocks 0..99, `reorg_at_height(50)` fails with a syntax error on its very
first statement and deletes nothing, so the claimed post-condition
(max_height = 49, no rows with height ≥ 50) is not established.  With the
backend's standard delete syntax (the spec's stated intent) the same four
deletions do establish it. -/
theorem reorg_remove_statements_rejected :
    reorg_at_height
      ⟨(List.range 100).map (fun i => (⟨Int.ofNat i + 1, i⟩ : TableRow)),
        (List.range 100).map (fun i => (⟨Int.ofNat i + 1, i⟩ : TableRow)),
        (List.range 100).map (fun i => (⟨Int.ofNat i + 1, i⟩ : TableRow)),
        (List.range 100).map (fun i => (⟨Int.ofNat i + 1, i⟩ : TableRow))⟩ 50 =
      Except.error "syntax error" ∧
    reorg_at_height_intended
      ⟨(List.range 100).map (fun i => (⟨Int.ofNat i + 1, i⟩ : TableRow)),
        (List.range 100).map (fun i => (⟨Int.ofNat i + 1, i⟩ : TableRow)),
        (List.range 100).map (fun i => (⟨Int.ofNat i + 1, i⟩ : TableRow)),
        (List.range 100).map (fun i => (⟨Int.ofNat i + 1, i⟩ : TableRow))⟩ 50 =
      Except.ok
        ⟨(List.range 50).map (fun i => (⟨Int.ofNat i + 1, i⟩ : TableRow)),
          (List.range 50).map (fun i => (⟨Int.ofNat i + 1, i⟩ : TableRow)),
          (List.range 50).map (fun i => (⟨Int.ofNat i + 1, i⟩ : TableRow)),
          (List.range 50).map (fun i => (⟨Int.ofNat i + 1, i⟩ : TableRow))⟩ ∧
    get_max_height
      ((List.range 50).map (fun i => (⟨Int.ofNat i + 1, i⟩ : TableRow))) =
      some 49 := by
  refine ⟨rfl, ?_, ?_⟩
  · rfl
  · rfl

/-- C8.  When parsing a block of the accumulated batch fails at flush
time, nothing is dispatched down the pipeline and `flush_batch` returns
the parse error — but both `insert` and `flush` discard `flush_batch`'s
result and return `Ok(())`, so the error never reaches their caller (and
the accumulated batch is silently dropped). -/
theorem parse_error_not_surfaced :
    flush_batch (fun _ => Except.error "bad block")
        ⟨none, [⟨0, ⟨[1]⟩, 1⟩], 1, 0, [], []⟩ =
      (⟨none, [], 1, 0, [], []⟩, Except.error "bad block") ∧
    pg_flush (fun _ => Except.error "bad block")
        ⟨none, [⟨0, ⟨[1]⟩, 1⟩], 1, 0, [], []⟩ =
      (⟨none, [], 1, 0, [], []⟩, Except.ok ()) ∧
    pg_insert (fun _ => Except.error "bad block")
        ⟨none, [⟨0, ⟨[1]⟩, 99000⟩], 99000, 0, [], []⟩ ⟨1, ⟨[2]⟩, 2000⟩ =
      (⟨some 1, [], 101000, 0, [], []⟩, Except.ok ()) := by
  refine ⟨rfl, rfl, rfl⟩

/-- C9 counterexample: an `insert` that brings the cumulative tx count to
exactly 100000 does not flush — the batch is retained and nothing is
dispatched (`if self.batch_txs_total > 100_000` is strict). -/
theorem no_flush_at_exactly_100000 :
    pg_insert (fun _ => Except.ok ⟨⟨0, ⟨[5]⟩, ⟨[]⟩⟩, [], [], []⟩)
        ⟨none, [⟨0, ⟨[1]⟩, 99999⟩], 99999, 0, [], []⟩ ⟨1, ⟨[2]⟩, 1⟩ =
      (⟨some 1, [⟨0, ⟨[1]⟩, 99999⟩, ⟨1, ⟨[2]⟩, 1⟩], 100000, 0, [], []⟩,
        Except.ok ()) := by
  rfl

/-- C9 (amended).  `insert` accumulates the block and flushes only when
the cumulative tx count strictly exceeds 100000; at a cumulative count of
exactly 100000 (or below) the batch is retained undispatched. -/
theorem flush_threshold_strict (parse : BlockInfo → Except String Parsed)
    (st : PgState) (info : BlockInfo) :
    (st.batch_txs_total + info.tx_count ≤ 100000 →
      pg_insert parse st info =
        ({ st with
            cached_max_height :=
              update_max_height st.cached_max_height info.height
            batch_txs_total := st.batch_txs_total + info.tx_count
            batch := st.batch ++ [info] }, Except.ok ())) ∧
    (100000 < st.batch_txs_total + info.tx_count →
      pg_insert parse st info =
        ((flush_batch parse
          { st with
              cached_max_height :=
                update_max_height st.cached_max_height info.height
              batch_txs_total := st.batch_txs_total + info.tx_count
              batch := st.batch ++ [info] }).1, Except.ok ())) := by
  constructor
  · intro h
    unfold pg_insert
    rw [if_neg (by show ¬100000 < st.batch_txs_total + info.tx_count; omega)]
  · intro h
    unfold pg_insert
    rw [if_pos (by show 100000 < st.batch_txs_total + info.tx_count; omega)]

/-- Witness for `flush_threshold_strict`: at a cumulative count of exactly
100000 the batch is retained; one more tx and the batch is flushed
(parsed, registered in flight and dispatched with batch id 0). -/
theorem flush_threshold_strict_witness :
    pg_insert (fun _ => Except.ok ⟨⟨0, ⟨[5]⟩, ⟨[]⟩⟩, [], [], []⟩)
        ⟨none, [], 99999, 0, [], []⟩ ⟨1, ⟨[2]⟩, 1⟩ =
      (⟨some 1, [⟨1, ⟨[2]⟩, 1⟩], 100000, 0, [], []⟩, Except.ok ()) ∧
    pg_insert (fun _ => Except.ok ⟨⟨0, ⟨[5]⟩, ⟨[]⟩⟩, [], [], []⟩)
        ⟨none, [], 100000, 0, [], []⟩ ⟨1, ⟨[2]⟩, 1⟩ =
      (⟨some 1, [], 0, 1, [(0, ⟨[5]⟩)],
          [(0, [⟨⟨0, ⟨[5]⟩, ⟨[]⟩⟩, [], [], []⟩])]⟩, Except.ok ()) := by
  constructor
  · exact (flush_threshold_strict (fun _ => Except.ok ⟨⟨0, ⟨[5]⟩, ⟨[]⟩⟩, [], [], []⟩)
      ⟨none, [], 99999, 0, [], []⟩ ⟨1, ⟨[2]⟩, 1⟩).1 (by decide)
  · exact (flush_threshold_strict (fun _ => Except.ok ⟨⟨0, ⟨[5]⟩, ⟨[]⟩⟩, [], [], []⟩)
      ⟨none, [], 100000, 0, [], []⟩ ⟨1, ⟨[2]⟩, 1⟩).2 (by decide)

end Indexer
